import Mathlib

/-!
PlotJuggler: the time-indexed sample buffer `PlotDataGeneric<Time, Value>`.

A shallow embedding of `include/PlotJuggler/plotdata.h`.

* The two `boost::circular_buffer` members are modelled by `CircularBuffer`: a capacity
  and the stored elements in iteration order (oldest first).  The member functions used
  by the header (`push_back`, `pop_front`, `set_capacity`, `at`, `front`, `back`) follow
  the behaviour documented by Boost.CircularBuffer.
* The template parameter `Time` is any type with a total order and the arithmetic used by
  `pushBack` (class `ArithmeticTime`); `Value` is any totally ordered type.
* The mutex is not modelled: every member function is one atomic step on the state.
* A call that throws `std::out_of_range` or runs into undefined behaviour returns
  `Except.error`; see `Fault`.
* `long` and `size_t` are taken to be 64 bits wide (LP64), so that the integer expressions
  of `pushBack` do not overflow; they are modelled by `Int` and `Nat`.
-/

namespace PlotJuggler

/-- How a call can go wrong.  `out_of_range` is the C++ exception `std::out_of_range`
thrown by `boost::circular_buffer::at`; `undefined` stands for undefined behaviour
(`front`, `back` or `pop_front` on an empty buffer, a division by zero, a conversion whose
result is not representable). -/
inductive Fault where
  | out_of_range
  | undefined
  deriving DecidableEq, Repr

deriving instance DecidableEq for Except

/-- State of a `boost::circular_buffer<α>`: its capacity and its elements, oldest first. -/
structure CircularBuffer (α : Type) where
  capacity : Nat
  items : List α
  deriving DecidableEq, Repr

/-- Constructor `circular_buffer(capacity_type)`: an empty buffer of the given capacity. -/
def CircularBuffer.init {α : Type} (buffer_capacity : Nat) : CircularBuffer α :=
  ⟨buffer_capacity, []⟩

/-- Member `size()`. -/
def CircularBuffer.size {α : Type} (b : CircularBuffer α) : Nat :=
  b.items.length

/-- Member `full()`: `capacity() == size()`. -/
def CircularBuffer.full {α : Type} (b : CircularBuffer α) : Bool :=
  decide (b.capacity = b.size)

/-- Member `empty()`: `size() == 0`. -/
def CircularBuffer.empty {α : Type} (b : CircularBuffer α) : Bool :=
  decide (b.size = 0)

/-- Member `front()`: the oldest element; undefined on an empty buffer. -/
def CircularBuffer.front {α : Type} (b : CircularBuffer α) : Except Fault α :=
  match b.items.head? with
  | some v => .ok v
  | none => .error .undefined

/-- Member `back()`: the newest element; undefined on an empty buffer. -/
def CircularBuffer.back {α : Type} (b : CircularBuffer α) : Except Fault α :=
  match b.items.getLast? with
  | some v => .ok v
  | none => .error .undefined

/-- Member `at(index)`: the element at `index`, throws `std::out_of_range` when
`index >= size()`. -/
def CircularBuffer.at {α : Type} (b : CircularBuffer α) (index : Nat) : Except Fault α :=
  match b.items[index]? with
  | some v => .ok v
  | none => .error .out_of_range

/-- Member `push_back(item)`: on a full buffer of capacity zero nothing happens, on any other
full buffer the oldest element is overwritten, otherwise the item is appended. -/
def CircularBuffer.push_back {α : Type} (b : CircularBuffer α) (item : α) : CircularBuffer α :=
  if b.full then
    if b.empty then b
    else { b with items := b.items.tail ++ [item] }
  else { b with items := b.items ++ [item] }

/-- Member `pop_front()`: removes the oldest element; undefined on an empty buffer. -/
def CircularBuffer.pop_front {α : Type} (b : CircularBuffer α) : Except Fault (CircularBuffer α) :=
  match b.items with
  | [] => .error .undefined
  | _ :: rest => .ok { b with items := rest }

/-- Member `set_capacity(new_capacity)`.  Boost: "if the current number of elements stored in
the circular_buffer is greater than the desired new capacity then number of
`[size() - new_capacity]` last elements will be removed"; the implementation moves the
range `[begin(), begin() + min(new_capacity, size()))` into the new storage.  (The member
that removes the first elements instead is `rset_capacity`.) -/
def CircularBuffer.set_capacity {α : Type} (b : CircularBuffer α) (new_capacity : Nat) :
    CircularBuffer α :=
  if new_capacity = b.capacity then b
  else ⟨new_capacity, b.items.take (min new_capacity b.size)⟩

/-- Nested class `Point`. -/
structure Point (Time Value : Type) where
  x : Time
  y : Value
  deriving DecidableEq, Repr

/-- Nested struct `RangeTime_`. -/
structure RangeTime_ (Time : Type) where
  min : Time
  max : Time
  deriving DecidableEq, Repr

/-- Nested struct `RangeValue_`. -/
structure RangeValue_ (Value : Type) where
  min : Value
  max : Value
  deriving DecidableEq, Repr

/-- Enumerator `MAX_CAPACITY = 1024*1024`. -/
def MAX_CAPACITY : Nat := 1024 * 1024

/-- Enumerator `MIN_CAPACITY = 10`. -/
def MIN_CAPACITY : Nat := 10

/-- The arithmetic that `pushBack` uses on the template parameter `Time`
(`static_assert(std::is_arithmetic<Time>::value)`):
`sub a b` is `a - b`, `div a b` is `a / b`, `ofLong n` is the cast `(Time)n` of a `long`,
`toUnsigned t` is the implicit conversion of `t` to `unsigned`, and `max` is
`std::numeric_limits<Time>::max()`.  Division and conversion may be undefined. -/
class ArithmeticTime (Time : Type) where
  sub : Time → Time → Time
  div : Time → Time → Except Fault Time
  ofLong : Int → Time
  toUnsigned : Time → Except Fault Nat
  max : Time

/-- The instance for `Time = long`, for timestamps whose differences do not overflow: exact subtraction,
division truncating towards zero and undefined for a zero divisor, conversion to the 32-bit
`unsigned` by reduction modulo `2^32`, and `LONG_MAX = 2^63 - 1`. -/
instance instArithmeticTimeInt : ArithmeticTime Int where
  sub a b := a - b
  div a b := if b = 0 then .error .undefined else .ok (Int.tdiv a b)
  ofLong n := n
  toUnsigned t := .ok (t % 4294967296).toNat
  max := 9223372036854775807

/-- Data members of `PlotDataGeneric<Time, Value>` that the sample store depends on:
`_x_points`, `_y_points`, `_max_range_X` and `_capacity`.  (The name, the colour hint,
`_update_bounding_rect` and the mutex take no part in any operation on the samples.) -/
structure PlotDataGeneric (Time Value : Type) where
  _x_points : CircularBuffer Time
  _y_points : CircularBuffer Value
  _max_range_X : Time
  _capacity : Nat
  deriving DecidableEq, Repr

/-- The constructor `PlotDataGeneric()`: two empty buffers of capacity 1024,
`_max_range_X = numeric_limits<Time>::max()`, `_capacity = 1024`. -/
def PlotDataGeneric.ctor {Time Value : Type} [ArithmeticTime Time] : PlotDataGeneric Time Value :=
  { _x_points := CircularBuffer.init 1024
    _y_points := CircularBuffer.init 1024
    _max_range_X := ArithmeticTime.max
    _capacity := 1024 }

/-- Member `capacity()`: returns `_capacity`. -/
def PlotDataGeneric.capacity {Time Value : Type} (s : PlotDataGeneric Time Value) : Nat :=
  s._capacity

/-- Member `size()`: returns `_x_points.size()`. -/
def PlotDataGeneric.size {Time Value : Type} (s : PlotDataGeneric Time Value) : Nat :=
  s._x_points.size

/-- Member `setCapacity(capacity)`. -/
def PlotDataGeneric.setCapacity {Time Value : Type} (s : PlotDataGeneric Time Value)
    (capacity : Nat) : PlotDataGeneric Time Value :=
  let capacity := if capacity > MAX_CAPACITY then MAX_CAPACITY else capacity
  let capacity := if capacity < MIN_CAPACITY then MIN_CAPACITY else capacity
  { s with
    _capacity := capacity
    _x_points := s._x_points.set_capacity capacity
    _y_points := s._y_points.set_capacity capacity }

/-- Member `setMaximumRangeX(max_range)`. -/
def PlotDataGeneric.setMaximumRangeX {Time Value : Type} (s : PlotDataGeneric Time Value)
    (max_range : Time) : PlotDataGeneric Time Value :=
  { s with _max_range_X := max_range }

/-- The guard of the adaptive block of `pushBack`:
`sizeX >= 2 && capacity >= MIN_CAPACITY && capacity <= MAX_CAPACITY
 && _max_range_X != numeric_limits<Time>::max()`, with `sizeX = _x_points.size()` and
`capacity = _x_points.capacity()`. -/
def PlotDataGeneric.adaptiveTrigger {Time Value : Type} [DecidableEq Time] [ArithmeticTime Time]
    (s : PlotDataGeneric Time Value) : Bool :=
  decide (s._x_points.size ≥ 2) && decide (s._x_points.capacity ≥ MIN_CAPACITY)
    && decide (s._x_points.capacity ≤ MAX_CAPACITY)
    && decide (s._max_range_X ≠ ArithmeticTime.max)

/-- The local `delta` of `pushBack`:
`rangeX = _x_points.back() - _x_points.front(); delta = rangeX / (Time)(sizeX - 1)`. -/
def PlotDataGeneric.delta {Time Value : Type} [ArithmeticTime Time]
    (s : PlotDataGeneric Time Value) : Except Fault Time := do
  let back ← s._x_points.back
  let front ← s._x_points.front
  let rangeX := ArithmeticTime.sub back front
  ArithmeticTime.div rangeX (ArithmeticTime.ofLong ((s._x_points.size : Int) - 1))

/-- The local `new_capacity` of `pushBack` as first computed:
`unsigned new_capacity = (_max_range_X / delta)`. -/
def PlotDataGeneric.proposedCapacity {Time Value : Type} [ArithmeticTime Time]
    (s : PlotDataGeneric Time Value) : Except Fault Nat := do
  let delta ← s.delta
  let quotient ← ArithmeticTime.div s._max_range_X delta
  ArithmeticTime.toUnsigned quotient

/-- The loop `while (_x_points.size() > new_capacity) { _x_points.pop_front();
_y_points.pop_front(); }` of `pushBack`, on the elements of the two buffers: each
iteration removes the head of both lists as `CircularBuffer.pop_front` does, and is
undefined when the second list is already empty. -/
def PlotDataGeneric.evictLoop {Time Value : Type} (new_capacity : Nat) :
    List Time → List Value → Except Fault (List Time × List Value)
  | [], ys => .ok ([], ys)
  | x :: xs, ys =>
    if (x :: xs).length > new_capacity then
      match ys with
      | [] => .error .undefined
      | _ :: ys_rest => PlotDataGeneric.evictLoop new_capacity xs ys_rest
    else .ok (x :: xs, ys)

/-- The body of `if (labs(new_capacity - capacity) > (capacity*2)/100)` in `pushBack`:
eviction loop, clamping of `new_capacity`, `set_capacity` on both buffers. -/
def PlotDataGeneric.applyNewCapacity {Time Value : Type} (s : PlotDataGeneric Time Value)
    (new_capacity : Nat) : Except Fault (PlotDataGeneric Time Value) := do
  let (xs, ys) ← PlotDataGeneric.evictLoop new_capacity s._x_points.items s._y_points.items
  let new_capacity := if new_capacity > MAX_CAPACITY then MAX_CAPACITY else new_capacity
  let new_capacity := if new_capacity < MIN_CAPACITY then MIN_CAPACITY else new_capacity
  pure { s with
    _x_points := CircularBuffer.set_capacity ⟨s._x_points.capacity, xs⟩ new_capacity
    _y_points := CircularBuffer.set_capacity ⟨s._y_points.capacity, ys⟩ new_capacity }

/-- The adaptive block of `pushBack` (everything before the two `push_back` calls). -/
def PlotDataGeneric.adapt {Time Value : Type} [DecidableEq Time] [ArithmeticTime Time]
    (s : PlotDataGeneric Time Value) : Except Fault (PlotDataGeneric Time Value) :=
  if s.adaptiveTrigger then do
    let new_capacity ← s.proposedCapacity
    let capacity := s._x_points.capacity
    if Int.natAbs ((new_capacity : Int) - (capacity : Int)) > (capacity * 2) / 100 then
      s.applyNewCapacity new_capacity
    else pure s
  else pure s

/-- Member `pushBack(point)`. -/
def PlotDataGeneric.pushBack {Time Value : Type} [DecidableEq Time] [ArithmeticTime Time]
    (s : PlotDataGeneric Time Value) (point : Point Time Value) :
    Except Fault (PlotDataGeneric Time Value) := do
  let s ← s.adapt
  pure { s with
    _x_points := s._x_points.push_back point.x
    _y_points := s._y_points.push_back point.y }

/-- The loop of `std::lower_bound(first, last, val)` on a random-access range, as in
libstdc++: `first` and `len` are the loop variables, the first argument bounds the number
of iterations.
`while (len > 0) { half = len >> 1; middle = first + half;
   if (*middle < val) { first = middle + 1; len = len - half - 1; } else len = half; }`.
Reading past the end of the range does not happen when `first + len` is at most the
length of the range; the loop stops there. -/
def lower_bound_loop {Time : Type} [LinearOrder Time] (xs : List Time) (val : Time) :
    Nat → Nat → Nat → Nat
  | 0, first, _ => first
  | fuel + 1, first, len =>
    if len > 0 then
      let half := len / 2
      let middle := first + half
      match xs[middle]? with
      | some m =>
        if m < val then lower_bound_loop xs val fuel (middle + 1) (len - half - 1)
        else lower_bound_loop xs val fuel first half
      | none => first
    else first

/-- The call `std::lower_bound(begin, end, val)` followed by `std::distance(begin, ·)`:
the position found in the whole range.  The length halves at every iteration, so
`xs.length` iterations are enough. -/
def lower_bound {Time : Type} [LinearOrder Time] (xs : List Time) (val : Time) : Nat :=
  lower_bound_loop xs val xs.length 0 xs.length

/-- Member `getIndexFromX(x)`. -/
def PlotDataGeneric.getIndexFromX {Time Value : Type} [LinearOrder Time]
    (s : PlotDataGeneric Time Value) (x : Time) : Int :=
  if s._x_points.size = 0 then -1
  else
    let index : Int := lower_bound s._x_points.items x
    if index ≥ (s._x_points.size : Int) ∨ index < 0 then -1
    else index

/-- Member `getYfromX(x)`: `none` is the empty `boost::optional`. -/
def PlotDataGeneric.getYfromX {Time Value : Type} [LinearOrder Time]
    (s : PlotDataGeneric Time Value) (x : Time) : Except Fault (Option Value) :=
  let index : Int := lower_bound s._x_points.items x
  if index ≥ (s._x_points.size : Int) ∨ index < 0 then .ok none
  else do
    let y ← s._y_points.at index.toNat
    pure (some y)

/-- Member `at(index)`: the `try` block and its `catch(...)` handler. -/
def PlotDataGeneric.at {Time Value : Type} (s : PlotDataGeneric Time Value) (index : Nat) :
    Except Fault (Point Time Value) :=
  let attempt : Except Fault (Point Time Value) := do
    let x ← s._x_points.at index
    let y ← s._y_points.at index
    pure ⟨x, y⟩
  match attempt with
  | .ok p => .ok p
  | .error _ => do
    let x ← s._x_points.back
    let y ← s._y_points.back
    pure ⟨x, y⟩

/-- Member `getRangeX()`: `none` is the empty `boost::optional`. -/
def PlotDataGeneric.getRangeX {Time Value : Type} (s : PlotDataGeneric Time Value) :
    Except Fault (Option (RangeTime_ Time)) :=
  if s._x_points.size < 2 then .ok none
  else do
    let front ← s._x_points.front
    let back ← s._x_points.back
    pure (some ⟨front, back⟩)

/-- The loop `for (int i = first_index+1; i < last_index; i++)` of `getRangeY`: the first
argument is the number of iterations left, `last_index - i`. -/
def PlotDataGeneric.getRangeY_loop {Value : Type} [LinearOrder Value]
    (y_points : CircularBuffer Value) :
    Nat → Int → Value → Value → Except Fault (RangeValue_ Value)
  | 0, _, y_min, y_max => .ok ⟨y_min, y_max⟩
  | remaining + 1, i, y_min, y_max =>
    match y_points.at i.toNat with
    | .error e => .error e
    | .ok Y =>
      if Y < y_min then PlotDataGeneric.getRangeY_loop y_points remaining (i + 1) Y y_max
      else if Y > y_max then PlotDataGeneric.getRangeY_loop y_points remaining (i + 1) y_min Y
      else PlotDataGeneric.getRangeY_loop y_points remaining (i + 1) y_min y_max

/-- Member `getRangeY(first_index, last_index)`: `none` is the empty `boost::optional`. -/
def PlotDataGeneric.getRangeY {Time Value : Type} [LinearOrder Value]
    (s : PlotDataGeneric Time Value) (first_index last_index : Int) :
    Except Fault (Option (RangeValue_ Value)) :=
  if first_index < 0 ∨ last_index < 0 ∨ first_index > last_index then .ok none
  else do
    let first_Y ← s._y_points.at first_index.toNat
    let range ← PlotDataGeneric.getRangeY_loop s._y_points
      (last_index - (first_index + 1)).toNat (first_index + 1) first_Y first_Y
    pure (some range)

/-- One call of a public member function of the sample store. -/
inductive Call (Time Value : Type) where
  | pushBack (point : Point Time Value)
  | setCapacity (capacity : Nat)
  | setMaximumRangeX (max_range : Time)
  | size
  | at (index : Nat)
  | getIndexFromX (x : Time)
  | getYfromX (x : Time)
  | getRangeX
  | getRangeY (first_index last_index : Int)

/-- The object after a query that produced `result`: the queries assign to no data member,
so the object is as before when the query returns or throws `std::out_of_range`; nothing
is known after undefined behaviour. -/
def afterQuery {Time Value α : Type} (s : PlotDataGeneric Time Value) (result : Except Fault α) :
    Except Fault (PlotDataGeneric Time Value) :=
  match result with
  | .error .undefined => .error .undefined
  | _ => .ok s

/-- The object after one call. -/
def PlotDataGeneric.call {Time Value : Type} [LinearOrder Time] [ArithmeticTime Time]
    [LinearOrder Value] (s : PlotDataGeneric Time Value) :
    Call Time Value → Except Fault (PlotDataGeneric Time Value)
  | .pushBack point => s.pushBack point
  | .setCapacity capacity => .ok (s.setCapacity capacity)
  | .setMaximumRangeX max_range => .ok (s.setMaximumRangeX max_range)
  | .size => .ok s
  | .at index => afterQuery s (s.at index)
  | .getIndexFromX _ => .ok s
  | .getYfromX x => afterQuery s (s.getYfromX x)
  | .getRangeX => afterQuery s s.getRangeX
  | .getRangeY first_index last_index => afterQuery s (s.getRangeY first_index last_index)

/-- The object after a sequence of calls, made one after the other. -/
def PlotDataGeneric.calls {Time Value : Type} [LinearOrder Time] [ArithmeticTime Time]
    [LinearOrder Value] (s : PlotDataGeneric Time Value) :
    List (Call Time Value) → Except Fault (PlotDataGeneric Time Value)
  | [] => .ok s
  | c :: rest =>
    match s.call c with
    | .ok s1 => PlotDataGeneric.calls s1 rest
    | .error e => .error e

/-- The object after pushing the given points one after the other. -/
def PlotDataGeneric.pushBackAll {Time Value : Type} [DecidableEq Time] [ArithmeticTime Time]
    (s : PlotDataGeneric Time Value) :
    List (Point Time Value) → Except Fault (PlotDataGeneric Time Value)
  | [] => .ok s
  | point :: rest =>
    match s.pushBack point with
    | .ok s1 => PlotDataGeneric.pushBackAll s1 rest
    | .error e => .error e

/-- The first `n` samples of a steady stream: timestamps `t0, t0 + 10, t0 + 20, ...` with
the values `value 0, value 1, ...`. -/
def steadySamples {Value : Type} (t0 : Int) (value : Nat → Value) (n : Nat) :
    List (Point Int Value) :=
  (List.range n).map (fun (k : Nat) => Point.mk (t0 + 10 * (k : Int)) (value k))

/-- Class invariant of the sample store: the two buffers hold the same number of elements
and have the same capacity, hold no more than their capacity, and that capacity lies in
`[MIN_CAPACITY, MAX_CAPACITY]`. -/
def PlotDataGeneric.WellFormed {Time Value : Type} (s : PlotDataGeneric Time Value) : Prop :=
  s._x_points.size = s._y_points.size ∧
  s._x_points.capacity = s._y_points.capacity ∧
  s._x_points.size ≤ s._x_points.capacity ∧
  MIN_CAPACITY ≤ s._x_points.capacity ∧
  s._x_points.capacity ≤ MAX_CAPACITY

instance PlotDataGeneric.decidableWellFormed {Time Value : Type}
    (s : PlotDataGeneric Time Value) : Decidable s.WellFormed := by
  unfold PlotDataGeneric.WellFormed
  infer_instance

/-- A small populated buffer used to evaluate the operations: timestamps `[1, 3, 5, 7]`,
values `[10, 2, 8, 5]`, default capacity and unbounded time range. -/
def sampleBuffer : PlotDataGeneric Int Int :=
  { _x_points := ⟨1024, [1, 3, 5, 7]⟩
    _y_points := ⟨1024, [10, 2, 8, 5]⟩
    _max_range_X := ArithmeticTime.max
    _capacity := 1024 }

end PlotJuggler

namespace PlotJuggler

/-! ## The circular buffers -/

/-- After `set_capacity n` the capacity is `n`. -/
theorem set_capacity_capacity {α : Type} (b : CircularBuffer α) (n : Nat) :
    (b.set_capacity n).capacity = n := by
  unfold CircularBuffer.set_capacity
  split
  · rename_i h
    exact h.symm
  · rfl

/-- The elements left by `set_capacity n`: the first `n` of them when the length exceeds `n`, all of them otherwise. -/
theorem set_capacity_items {α : Type} (b : CircularBuffer α) (n : Nat)
    (h : b.size ≤ b.capacity) :
    (b.set_capacity n).items = b.items.take n := by
  unfold CircularBuffer.set_capacity
  unfold CircularBuffer.size at *
  split
  · rename_i heq
    rw [List.take_of_length_le (by omega)]
  · show b.items.take (min n b.items.length) = b.items.take n
    rcases Nat.le_total n b.items.length with hle | hle
    · rw [Nat.min_eq_left hle]
    · rw [Nat.min_eq_right hle, List.take_of_length_le (le_refl _), List.take_of_length_le hle]

/-- The capacity is unchanged by `push_back`. -/
theorem push_back_capacity {α : Type} (b : CircularBuffer α) (v : α) :
    (b.push_back v).capacity = b.capacity := by
  unfold CircularBuffer.push_back
  split
  · split <;> rfl
  · rfl

/-- The elements after `push_back` on a buffer that is not full. -/
theorem push_back_items_of_lt {α : Type} (b : CircularBuffer α) (v : α)
    (h : b.size < b.capacity) : (b.push_back v).items = b.items ++ [v] := by
  have hfull : b.full = false := by
    simp only [CircularBuffer.full, decide_eq_false_iff_not]
    omega
  simp [CircularBuffer.push_back, hfull]

/-- The elements after `push_back` on a full buffer of non-zero capacity. -/
theorem push_back_items_of_full {α : Type} (b : CircularBuffer α) (v : α)
    (h : b.size = b.capacity) (hpos : 0 < b.capacity) :
    (b.push_back v).items = b.items.tail ++ [v] := by
  have hfull : b.full = true := by
    simp only [CircularBuffer.full, decide_eq_true_eq]
    omega
  have hempty : b.empty = false := by
    simp only [CircularBuffer.empty, decide_eq_false_iff_not]
    omega
  simp [CircularBuffer.push_back, hfull, hempty]

/-- The number of elements after `push_back` on a buffer of non-zero capacity that holds no
more than its capacity: one more, capped by the capacity. -/
theorem push_back_size {α : Type} (b : CircularBuffer α) (v : α)
    (h : b.size ≤ b.capacity) (hpos : 0 < b.capacity) :
    (b.push_back v).size = min (b.size + 1) b.capacity := by
  rcases Nat.eq_or_lt_of_le h with heq | hlt
  · have hitems := push_back_items_of_full b v heq hpos
    unfold CircularBuffer.size at *
    rw [hitems]
    simp only [List.length_append, List.length_tail, List.length_singleton]
    omega
  · have hitems := push_back_items_of_lt b v hlt
    unfold CircularBuffer.size at *
    rw [hitems]
    simp only [List.length_append, List.length_singleton]
    omega

/-- On two lists of the same length the eviction loop of `pushBack` succeeds and drops the
same number of oldest elements from both: as many as exceed `new_capacity`. -/
theorem evictLoop_eq {Time Value : Type} (new_capacity : Nat) :
    ∀ (xs : List Time) (ys : List Value), xs.length = ys.length →
      PlotDataGeneric.evictLoop new_capacity xs ys
        = .ok (xs.drop (xs.length - new_capacity), ys.drop (xs.length - new_capacity)) := by
  intro xs
  induction xs with
  | nil =>
    intro ys hlen
    cases ys with
    | nil => simp [PlotDataGeneric.evictLoop]
    | cons y ys => simp at hlen
  | cons x xs ih =>
    intro ys hlen
    cases ys with
    | nil => simp at hlen
    | cons y ys =>
      have hlen2 : xs.length = ys.length := by simpa using hlen
      by_cases hgt : (x :: xs).length > new_capacity
      · have hk : (x :: xs).length - new_capacity = (xs.length - new_capacity) + 1 := by
          simp only [List.length_cons] at hgt ⊢
          omega
        simp only [PlotDataGeneric.evictLoop, hgt, if_true]
        rw [ih ys hlen2, hk, List.drop_succ_cons, List.drop_succ_cons]
      · have hk : (x :: xs).length - new_capacity = 0 := by omega
        simp only [PlotDataGeneric.evictLoop, hgt, if_false]
        rw [hk, List.drop_zero, List.drop_zero]

/-! ## The class invariant -/

/-- The two clamping statements of `setCapacity` and `pushBack` compute
`min (max n MIN_CAPACITY) MAX_CAPACITY`. -/
theorem clamp_eq (n : Nat) :
    (if (if n > MAX_CAPACITY then MAX_CAPACITY else n) < MIN_CAPACITY then MIN_CAPACITY
      else (if n > MAX_CAPACITY then MAX_CAPACITY else n))
      = min (max n MIN_CAPACITY) MAX_CAPACITY := by
  unfold MAX_CAPACITY MIN_CAPACITY
  split_ifs <;> omega

/-- On a buffer whose two sequences have the same length, the resize step of `pushBack`
succeeds: it drops the oldest samples in excess of `new_capacity` from both sequences and
sets both capacities to the clamped `new_capacity`. -/
theorem applyNewCapacity_eq {Time Value : Type} (s : PlotDataGeneric Time Value)
    (new_capacity : Nat) (hlen : s._x_points.size = s._y_points.size) :
    s.applyNewCapacity new_capacity = .ok
      { s with
        _x_points := CircularBuffer.set_capacity
          ⟨s._x_points.capacity, s._x_points.items.drop (s._x_points.size - new_capacity)⟩
          (min (max new_capacity MIN_CAPACITY) MAX_CAPACITY)
        _y_points := CircularBuffer.set_capacity
          ⟨s._y_points.capacity, s._y_points.items.drop (s._x_points.size - new_capacity)⟩
          (min (max new_capacity MIN_CAPACITY) MAX_CAPACITY) } := by
  unfold PlotDataGeneric.applyNewCapacity
  rw [evictLoop_eq new_capacity _ _ hlen]
  simp only [bind, Except.bind, pure, Except.pure, clamp_eq]
  rfl

/-- The adaptive block of `pushBack` either leaves the buffer as it is or applies a new
capacity. -/
theorem adapt_cases {Time Value : Type} [DecidableEq Time] [ArithmeticTime Time]
    (s s1 : PlotDataGeneric Time Value) (h : s.adapt = .ok s1) :
    s1 = s ∨ ∃ new_capacity, s.adaptiveTrigger = true
      ∧ s.proposedCapacity = .ok new_capacity
      ∧ Int.natAbs ((new_capacity : Int) - (s._x_points.capacity : Int))
          > (s._x_points.capacity * 2) / 100
      ∧ s.applyNewCapacity new_capacity = .ok s1 := by
  unfold PlotDataGeneric.adapt at h
  split at h
  · rename_i htrig
    cases hp : s.proposedCapacity with
    | error e =>
      rw [hp] at h
      simp [bind, Except.bind] at h
    | ok new_capacity =>
      rw [hp] at h
      simp only [bind, Except.bind] at h
      split at h
      · rename_i hbig
        exact Or.inr ⟨new_capacity, htrig, rfl, hbig, h⟩
      · left
        simp only [pure, Except.pure, Except.ok.injEq] at h
        exact h.symm
  · left
    simp only [pure, Except.pure, Except.ok.injEq] at h
    exact h.symm

/-- The resize step of `pushBack` preserves the class invariant and touches neither
`_capacity` nor `_max_range_X`. -/
theorem applyNewCapacity_wellFormed {Time Value : Type} (s s1 : PlotDataGeneric Time Value)
    (new_capacity : Nat) (h : s.applyNewCapacity new_capacity = .ok s1)
    (hwf : s.WellFormed) :
    s1.WellFormed ∧ s1._capacity = s._capacity ∧ s1._max_range_X = s._max_range_X := by
  obtain ⟨hlen, hcap, hle, hmin, hmax⟩ := hwf
  rw [applyNewCapacity_eq s new_capacity hlen] at h
  simp only [Except.ok.injEq] at h
  subst h
  have hlen2 : s._x_points.items.length = s._y_points.items.length := hlen
  have hle2 : s._x_points.items.length ≤ s._x_points.capacity := hle
  refine ⟨⟨?_, ?_, ?_, ?_, ?_⟩, rfl, rfl⟩
  · show (CircularBuffer.set_capacity _ _).size = (CircularBuffer.set_capacity _ _).size
    unfold CircularBuffer.size
    rw [set_capacity_items _ _ (by simp only [CircularBuffer.size, List.length_drop]; omega),
      set_capacity_items _ _ (by simp only [CircularBuffer.size, List.length_drop]; omega)]
    simp only [List.length_take, List.length_drop, CircularBuffer.size]
    omega
  · show (CircularBuffer.set_capacity _ _).capacity = (CircularBuffer.set_capacity _ _).capacity
    rw [set_capacity_capacity, set_capacity_capacity]
  · show (CircularBuffer.set_capacity _ _).size ≤ (CircularBuffer.set_capacity _ _).capacity
    rw [set_capacity_capacity]
    unfold CircularBuffer.size
    rw [set_capacity_items _ _ (by simp only [CircularBuffer.size, List.length_drop]; omega)]
    simp only [List.length_take, List.length_drop]
    omega
  · show MIN_CAPACITY ≤ (CircularBuffer.set_capacity _ _).capacity
    rw [set_capacity_capacity]
    unfold MIN_CAPACITY MAX_CAPACITY
    omega
  · show (CircularBuffer.set_capacity _ _).capacity ≤ MAX_CAPACITY
    rw [set_capacity_capacity]
    unfold MIN_CAPACITY MAX_CAPACITY
    omega

/-- The adaptive block of `pushBack` preserves the class invariant and touches neither
`_capacity` nor `_max_range_X`. -/
theorem adapt_wellFormed {Time Value : Type} [DecidableEq Time] [ArithmeticTime Time]
    (s s1 : PlotDataGeneric Time Value) (h : s.adapt = .ok s1) (hwf : s.WellFormed) :
    s1.WellFormed ∧ s1._capacity = s._capacity ∧ s1._max_range_X = s._max_range_X := by
  rcases adapt_cases s s1 h with heq | ⟨new_capacity, _, _, _, happly⟩
  · subst heq
    exact ⟨hwf, rfl, rfl⟩
  · exact applyNewCapacity_wellFormed s s1 new_capacity happly hwf

/-- A successful `pushBack` is the adaptive block followed by the two `push_back` calls. -/
theorem pushBack_eq_ok {Time Value : Type} [DecidableEq Time] [ArithmeticTime Time]
    (s s2 : PlotDataGeneric Time Value) (p : Point Time Value) (h : s.pushBack p = .ok s2) :
    ∃ s1, s.adapt = .ok s1 ∧
      s2 = { s1 with
        _x_points := s1._x_points.push_back p.x
        _y_points := s1._y_points.push_back p.y } := by
  unfold PlotDataGeneric.pushBack at h
  cases ha : s.adapt with
  | error e =>
    rw [ha] at h
    simp [bind, Except.bind] at h
  | ok s1 =>
    rw [ha] at h
    simp only [bind, Except.bind, pure, Except.pure, Except.ok.injEq] at h
    exact ⟨s1, rfl, h.symm⟩

/-- The two `push_back` calls of `pushBack` preserve the class invariant. -/
theorem push_back_wellFormed {Time Value : Type} (s : PlotDataGeneric Time Value)
    (p : Point Time Value) (hwf : s.WellFormed) :
    PlotDataGeneric.WellFormed { s with
      _x_points := s._x_points.push_back p.x
      _y_points := s._y_points.push_back p.y } := by
  obtain ⟨hlen, hcap, hle, hmin, hmax⟩ := hwf
  have hpos : 0 < s._x_points.capacity := by
    unfold MIN_CAPACITY at hmin
    omega
  refine ⟨?_, ?_, ?_, ?_, ?_⟩
  · show (s._x_points.push_back p.x).size = (s._y_points.push_back p.y).size
    rw [push_back_size _ _ hle hpos, push_back_size _ _ (by omega) (by omega)]
    omega
  · show (s._x_points.push_back p.x).capacity = (s._y_points.push_back p.y).capacity
    rw [push_back_capacity, push_back_capacity]
    exact hcap
  · show (s._x_points.push_back p.x).size ≤ (s._x_points.push_back p.x).capacity
    rw [push_back_size _ _ hle hpos, push_back_capacity]
    omega
  · show MIN_CAPACITY ≤ (s._x_points.push_back p.x).capacity
    rw [push_back_capacity]
    exact hmin
  · show (s._x_points.push_back p.x).capacity ≤ MAX_CAPACITY
    rw [push_back_capacity]
    exact hmax

/-- A successful `pushBack` preserves the class invariant and touches neither `_capacity`
nor `_max_range_X`. -/
theorem pushBack_wellFormed {Time Value : Type} [DecidableEq Time] [ArithmeticTime Time]
    (s s2 : PlotDataGeneric Time Value) (p : Point Time Value) (h : s.pushBack p = .ok s2)
    (hwf : s.WellFormed) :
    s2.WellFormed ∧ s2._capacity = s._capacity ∧ s2._max_range_X = s._max_range_X := by
  obtain ⟨s1, ha, rfl⟩ := pushBack_eq_ok s s2 p h
  obtain ⟨hwf1, hc, hm⟩ := adapt_wellFormed s s1 ha hwf
  exact ⟨push_back_wellFormed s1 p hwf1, hc, hm⟩

/-- The member `setCapacity` preserves the class invariant and sets `_capacity` and the
capacity of both sequences to the clamped argument. -/
theorem setCapacity_wellFormed {Time Value : Type} (s : PlotDataGeneric Time Value)
    (n : Nat) (hwf : s.WellFormed) :
    (s.setCapacity n).WellFormed
      ∧ (s.setCapacity n)._capacity = min (max n MIN_CAPACITY) MAX_CAPACITY
      ∧ (s.setCapacity n)._x_points.capacity = min (max n MIN_CAPACITY) MAX_CAPACITY := by
  obtain ⟨hlen, hcap, hle, hmin, hmax⟩ := hwf
  have hlen2 : s._x_points.items.length = s._y_points.items.length := hlen
  have hle2 : s._x_points.items.length ≤ s._x_points.capacity := hle
  simp only [PlotDataGeneric.setCapacity, clamp_eq]
  refine ⟨⟨?_, ?_, ?_, ?_, ?_⟩, trivial, ?_⟩
  · show (CircularBuffer.set_capacity _ _).size = (CircularBuffer.set_capacity _ _).size
    unfold CircularBuffer.size
    rw [set_capacity_items _ _ hle, set_capacity_items _ _ (by unfold CircularBuffer.size; omega)]
    simp only [List.length_take]
    omega
  · show (CircularBuffer.set_capacity _ _).capacity = (CircularBuffer.set_capacity _ _).capacity
    rw [set_capacity_capacity, set_capacity_capacity]
  · show (CircularBuffer.set_capacity _ _).size ≤ (CircularBuffer.set_capacity _ _).capacity
    rw [set_capacity_capacity]
    unfold CircularBuffer.size
    rw [set_capacity_items _ _ hle]
    simp only [List.length_take]
    omega
  · show MIN_CAPACITY ≤ (CircularBuffer.set_capacity _ _).capacity
    rw [set_capacity_capacity]
    unfold MIN_CAPACITY MAX_CAPACITY
    omega
  · show (CircularBuffer.set_capacity _ _).capacity ≤ MAX_CAPACITY
    rw [set_capacity_capacity]
    unfold MIN_CAPACITY MAX_CAPACITY
    omega
  · show (CircularBuffer.set_capacity _ _).capacity = _
    rw [set_capacity_capacity]

/-- The freshly constructed buffer satisfies the class invariant. -/
theorem ctor_wellFormed {Time Value : Type} [ArithmeticTime Time] :
    (PlotDataGeneric.ctor : PlotDataGeneric Time Value).WellFormed := by
  unfold PlotDataGeneric.WellFormed PlotDataGeneric.ctor CircularBuffer.init CircularBuffer.size
    MIN_CAPACITY MAX_CAPACITY
  simp

/-- A query leaves the object as it was. -/
theorem afterQuery_eq_ok {Time Value α : Type} (s s1 : PlotDataGeneric Time Value)
    (result : Except Fault α) (h : afterQuery s result = .ok s1) : s1 = s := by
  unfold afterQuery at h
  split at h
  · cases h
  · simp only [Except.ok.injEq] at h
    exact h.symm

/-- Every successful call preserves the class invariant and keeps `_capacity` within
`[MIN_CAPACITY, MAX_CAPACITY]`. -/
theorem call_invariant {Time Value : Type} [LinearOrder Time] [ArithmeticTime Time]
    [LinearOrder Value] (s s1 : PlotDataGeneric Time Value) (c : Call Time Value)
    (h : s.call c = .ok s1) (hwf : s.WellFormed)
    (hcap : MIN_CAPACITY ≤ s._capacity ∧ s._capacity ≤ MAX_CAPACITY) :
    s1.WellFormed ∧ MIN_CAPACITY ≤ s1._capacity ∧ s1._capacity ≤ MAX_CAPACITY := by
  cases c with
  | pushBack point =>
    obtain ⟨hwf1, hc, _⟩ := pushBack_wellFormed s s1 point h hwf
    rw [hc]
    exact ⟨hwf1, hcap⟩
  | setCapacity capacity =>
    simp only [PlotDataGeneric.call, Except.ok.injEq] at h
    subst h
    obtain ⟨hwf1, hc, _⟩ := setCapacity_wellFormed s capacity hwf
    rw [hc]
    refine ⟨hwf1, ?_, ?_⟩ <;> unfold MIN_CAPACITY MAX_CAPACITY <;> omega
  | setMaximumRangeX max_range =>
    simp only [PlotDataGeneric.call, Except.ok.injEq] at h
    subst h
    exact ⟨hwf, hcap⟩
  | size =>
    simp only [PlotDataGeneric.call, Except.ok.injEq] at h
    subst h
    exact ⟨hwf, hcap⟩
  | «at» index =>
    rw [afterQuery_eq_ok s s1 _ h]
    exact ⟨hwf, hcap⟩
  | getIndexFromX x =>
    simp only [PlotDataGeneric.call, Except.ok.injEq] at h
    subst h
    exact ⟨hwf, hcap⟩
  | getYfromX x =>
    rw [afterQuery_eq_ok s s1 _ h]
    exact ⟨hwf, hcap⟩
  | getRangeX =>
    rw [afterQuery_eq_ok s s1 _ h]
    exact ⟨hwf, hcap⟩
  | getRangeY first_index last_index =>
    rw [afterQuery_eq_ok s s1 _ h]
    exact ⟨hwf, hcap⟩

/-- Every successful sequence of calls preserves the class invariant and keeps `_capacity`
within `[MIN_CAPACITY, MAX_CAPACITY]`. -/
theorem calls_invariant {Time Value : Type} [LinearOrder Time] [ArithmeticTime Time]
    [LinearOrder Value] (cs : List (Call Time Value)) :
    ∀ (s s1 : PlotDataGeneric Time Value), s.calls cs = .ok s1 → s.WellFormed →
      (MIN_CAPACITY ≤ s._capacity ∧ s._capacity ≤ MAX_CAPACITY) →
      s1.WellFormed ∧ MIN_CAPACITY ≤ s1._capacity ∧ s1._capacity ≤ MAX_CAPACITY := by
  induction cs with
  | nil =>
    intro s s1 h hwf hcap
    simp only [PlotDataGeneric.calls, Except.ok.injEq] at h
    subst h
    exact ⟨hwf, hcap⟩
  | cons c rest ih =>
    intro s s1 h hwf hcap
    unfold PlotDataGeneric.calls at h
    cases hc : s.call c with
    | error e =>
      rw [hc] at h
      cases h
    | ok s2 =>
      rw [hc] at h
      obtain ⟨hwf2, hcap2⟩ := call_invariant s s2 c hc hwf hcap
      exact ih s2 s1 h hwf2 hcap2

/-! ## Lower-bound search -/

/-- In a non-decreasing list an element is at most every element at a later position. -/
theorem sorted_getElem?_le {α : Type} [LinearOrder α] {xs : List α}
    (hs : xs.Pairwise (· ≤ ·)) {i j : Nat} {a b : α} (hij : i ≤ j)
    (ha : xs[i]? = some a) (hb : xs[j]? = some b) : a ≤ b := by
  rcases Nat.eq_or_lt_of_le hij with heq | hlt
  · subst heq
    rw [ha] at hb
    cases hb
    exact le_refl _
  · obtain ⟨hi, rfl⟩ := List.getElem?_eq_some.mp ha
    obtain ⟨hj, rfl⟩ := List.getElem?_eq_some.mp hb
    exact List.pairwise_iff_getElem.mp hs i j hi hj hlt

/-- Loop invariant of the binary search: everything before `first` is below `val`,
everything from `first + len` on is not; the position returned splits the whole list. -/
theorem lower_bound_loop_spec {α : Type} [LinearOrder α] (xs : List α) (val : α)
    (hs : xs.Pairwise (· ≤ ·)) :
    ∀ (fuel first len : Nat), len ≤ fuel → first + len ≤ xs.length →
      (∀ j t, j < first → xs[j]? = some t → t < val) →
      (∀ j t, first + len ≤ j → xs[j]? = some t → val ≤ t) →
      lower_bound_loop xs val fuel first len ≤ xs.length ∧
      (∀ j t, j < lower_bound_loop xs val fuel first len → xs[j]? = some t → t < val) ∧
      (∀ j t, lower_bound_loop xs val fuel first len ≤ j → xs[j]? = some t → val ≤ t) := by
  intro fuel
  induction fuel with
  | zero =>
    intro first len hlen hbound hlo hhi
    have hzero : len = 0 := by omega
    subst hzero
    simp only [lower_bound_loop]
    exact ⟨by omega, hlo, by simpa using hhi⟩
  | succ fuel ih =>
    intro first len hlen hbound hlo hhi
    by_cases hpos : len > 0
    · have hmid : first + len / 2 < xs.length := by omega
      obtain ⟨m, hm⟩ : ∃ m, xs[first + len / 2]? = some m :=
        ⟨xs[first + len / 2], List.getElem?_eq_getElem hmid⟩
      by_cases hlt : m < val
      · have hstep : lower_bound_loop xs val (fuel + 1) first len
            = lower_bound_loop xs val fuel (first + len / 2 + 1) (len - len / 2 - 1) := by
          simp [lower_bound_loop, hpos, hm, hlt]
        rw [hstep]
        apply ih
        · omega
        · omega
        · intro j t hj hjt
          exact lt_of_le_of_lt (sorted_getElem?_le hs (by omega) hjt hm) hlt
        · intro j t hj hjt
          exact hhi j t (by omega) hjt
      · have hstep : lower_bound_loop xs val (fuel + 1) first len
            = lower_bound_loop xs val fuel first (len / 2) := by
          simp [lower_bound_loop, hpos, hm, hlt]
        rw [hstep]
        apply ih
        · omega
        · omega
        · exact hlo
        · intro j t hj hjt
          exact le_trans (not_lt.mp hlt) (sorted_getElem?_le hs hj hm hjt)
    · have hzero : len = 0 := by omega
      subst hzero
      simp only [lower_bound_loop, gt_iff_lt, lt_irrefl, if_false]
      exact ⟨by omega, hlo, by simpa using hhi⟩

/-- On a non-decreasing list `lower_bound` returns the number of elements below `val`:
all earlier elements are below `val` and no later one is. -/
theorem lower_bound_spec {α : Type} [LinearOrder α] (xs : List α) (val : α)
    (hs : xs.Pairwise (· ≤ ·)) :
    lower_bound xs val ≤ xs.length ∧
    (∀ j t, j < lower_bound xs val → xs[j]? = some t → t < val) ∧
    (∀ j t, lower_bound xs val ≤ j → xs[j]? = some t → val ≤ t) := by
  unfold lower_bound
  apply lower_bound_loop_spec xs val hs
  · exact le_refl _
  · omega
  · intro j t hj
    omega
  · intro j t hj hjt
    have hnone : xs[j]? = none := List.getElem?_eq_none (by omega)
    rw [hnone] at hjt
    cases hjt

/-- C1: on a buffer whose timestamps are non-decreasing, `getIndexFromX x` is the smallest
index whose timestamp is at least `x` when there is such a timestamp, and the sentinel
`-1` otherwise (in particular on the empty buffer). -/
theorem getIndexFromX_smallest_index {Time Value : Type} [LinearOrder Time]
    (s : PlotDataGeneric Time Value) (x : Time)
    (hsorted : s._x_points.items.Pairwise (· ≤ ·)) :
    ((∃ t ∈ s._x_points.items, x ≤ t) →
      ∃ i : Nat, s.getIndexFromX x = (i : Int) ∧
        (∃ t, s._x_points.items[i]? = some t ∧ x ≤ t) ∧
        (∀ j t, s._x_points.items[j]? = some t → x ≤ t → i ≤ j)) ∧
    ((¬ ∃ t ∈ s._x_points.items, x ≤ t) → s.getIndexFromX x = -1) := by
  obtain ⟨hle, hbelow, habove⟩ := lower_bound_spec s._x_points.items x hsorted
  constructor
  · rintro ⟨t, ht, hxt⟩
    obtain ⟨k, hk⟩ := List.getElem?_of_mem ht
    have hklen : k < s._x_points.items.length := (List.getElem?_eq_some.mp hk).1
    have hrk : lower_bound s._x_points.items x ≤ k := by
      by_contra hcon
      exact absurd (hbelow k t (by omega) hk) (not_lt.mpr hxt)
    have hrlen : lower_bound s._x_points.items x < s._x_points.items.length := by omega
    refine ⟨lower_bound s._x_points.items x, ?_, ?_, ?_⟩
    · have hsize : s._x_points.size ≠ 0 := by
        unfold CircularBuffer.size
        omega
      have hin : ¬ ((lower_bound s._x_points.items x : Int) ≥ (s._x_points.size : Int)
          ∨ (lower_bound s._x_points.items x : Int) < 0) := by
        unfold CircularBuffer.size
        omega
      simp only [PlotDataGeneric.getIndexFromX, hsize, if_false, hin]
    · refine ⟨s._x_points.items[lower_bound s._x_points.items x],
        List.getElem?_eq_getElem hrlen, ?_⟩
      exact habove _ _ (le_refl _) (List.getElem?_eq_getElem hrlen)
    · intro j u hj hxu
      by_contra hcon
      exact absurd (hbelow j u (by omega) hj) (not_lt.mpr hxu)
  · intro hnone
    have hrlen : lower_bound s._x_points.items x = s._x_points.items.length := by
      by_contra hcon
      have hlt : lower_bound s._x_points.items x < s._x_points.items.length := by omega
      exact hnone ⟨s._x_points.items[lower_bound s._x_points.items x],
        List.getElem_mem _, habove _ _ (le_refl _) (List.getElem?_eq_getElem hlt)⟩
    by_cases hsize : s._x_points.size = 0
    · simp only [PlotDataGeneric.getIndexFromX, hsize, if_true]
    · have hout : ((lower_bound s._x_points.items x : Int) ≥ (s._x_points.size : Int)
          ∨ (lower_bound s._x_points.items x : Int) < 0) := by
        left
        unfold CircularBuffer.size
        omega
      simp only [PlotDataGeneric.getIndexFromX, hsize, if_false, hout, if_true]

/-- C1 at the timestamps `[1, 3, 5, 7]`: `getIndexFromX 4 = 2`, `getIndexFromX 8 = -1`,
`getIndexFromX 0 = 0`, and the general statement at the query `4`. -/
theorem getIndexFromX_smallest_index_witness :
    (sampleBuffer.getIndexFromX 4 = 2 ∧ sampleBuffer.getIndexFromX 8 = -1
      ∧ sampleBuffer.getIndexFromX 0 = 0) ∧
    sampleBuffer._x_points.items.Pairwise (· ≤ ·) ∧
    (((∃ t ∈ sampleBuffer._x_points.items, (4 : Int) ≤ t) →
      ∃ i : Nat, sampleBuffer.getIndexFromX 4 = (i : Int) ∧
        (∃ t, sampleBuffer._x_points.items[i]? = some t ∧ (4 : Int) ≤ t) ∧
        (∀ j t, sampleBuffer._x_points.items[j]? = some t → (4 : Int) ≤ t → i ≤ j)) ∧
    ((¬ ∃ t ∈ sampleBuffer._x_points.items, (4 : Int) ≤ t) →
      sampleBuffer.getIndexFromX 4 = -1)) :=
  ⟨by decide, by decide, getIndexFromX_smallest_index sampleBuffer 4 (by decide)⟩

/-! ## Appending and shrinking -/

/-- With the default, unbounded `_max_range_X` the adaptive block of `pushBack` does
nothing. -/
theorem adapt_unbounded {Time Value : Type} [DecidableEq Time] [ArithmeticTime Time]
    (s : PlotDataGeneric Time Value) (hmax : s._max_range_X = ArithmeticTime.max) :
    s.adapt = .ok s := by
  have htrig : s.adaptiveTrigger = false := by
    simp [PlotDataGeneric.adaptiveTrigger, hmax]
  simp [PlotDataGeneric.adapt, htrig, pure, Except.pure]

/-- When the adaptive block succeeds, so does `pushBack`, with the two `push_back` calls
applied to its result. -/
theorem pushBack_of_adapt {Time Value : Type} [DecidableEq Time] [ArithmeticTime Time]
    (s s1 : PlotDataGeneric Time Value) (p : Point Time Value) (h : s.adapt = .ok s1) :
    s.pushBack p = .ok { s1 with
      _x_points := s1._x_points.push_back p.x
      _y_points := s1._y_points.push_back p.y } := by
  simp [PlotDataGeneric.pushBack, h, bind, Except.bind, pure, Except.pure]

/-- C2: on a buffer with the default, unbounded `_max_range_X`, `pushBack p` succeeds; below
capacity the stored samples become the old ones followed by `p`; at capacity they become
the old ones without the oldest, followed by `p`, and `size()` is unchanged; the capacity
of both sequences is unchanged. -/
theorem pushBack_unbounded_ring_append {Time Value : Type} [DecidableEq Time]
    [ArithmeticTime Time] (s : PlotDataGeneric Time Value) (p : Point Time Value)
    (hwf : s.WellFormed) (hmax : s._max_range_X = ArithmeticTime.max) :
    ∃ s1, s.pushBack p = .ok s1 ∧
      (s.size < s._x_points.capacity →
        s1._x_points.items = s._x_points.items ++ [p.x] ∧
        s1._y_points.items = s._y_points.items ++ [p.y]) ∧
      (s.size = s._x_points.capacity →
        s1._x_points.items = s._x_points.items.tail ++ [p.x] ∧
        s1._y_points.items = s._y_points.items.tail ++ [p.y] ∧
        s1.size = s.size) ∧
      s1._x_points.capacity = s._x_points.capacity ∧
      s1._y_points.capacity = s._y_points.capacity := by
  obtain ⟨hlen, hcap, hle, hmin, hmax2⟩ := hwf
  have hpos : 0 < s._x_points.capacity := by
    unfold MIN_CAPACITY at hmin
    omega
  refine ⟨_, pushBack_of_adapt s s p (adapt_unbounded s hmax), ?_, ?_, ?_, ?_⟩
  · intro hlt
    unfold PlotDataGeneric.size at hlt
    exact ⟨push_back_items_of_lt _ _ hlt, push_back_items_of_lt _ _ (by omega)⟩
  · intro heq
    unfold PlotDataGeneric.size at heq
    refine ⟨push_back_items_of_full _ _ heq hpos,
      push_back_items_of_full _ _ (by omega) (by omega), ?_⟩
    show (s._x_points.push_back p.x).size = s._x_points.size
    rw [push_back_size _ _ hle hpos]
    omega
  · exact push_back_capacity _ _
  · exact push_back_capacity _ _

/-- C2 on a full buffer of capacity 10: the oldest sample `(0, 100)` is dropped and the new
sample `(10, 110)` is appended. -/
theorem pushBack_unbounded_ring_append_witness :
    ∃ s1, PlotDataGeneric.pushBack
        (⟨⟨10, [0, 1, 2, 3, 4, 5, 6, 7, 8, 9]⟩,
          ⟨10, [100, 101, 102, 103, 104, 105, 106, 107, 108, 109]⟩,
          ArithmeticTime.max, 10⟩ : PlotDataGeneric Int Int) ⟨10, 110⟩ = .ok s1 ∧
      ((10 : Nat) < 10 →
        s1._x_points.items = [0, 1, 2, 3, 4, 5, 6, 7, 8, 9] ++ [10] ∧
        s1._y_points.items = [100, 101, 102, 103, 104, 105, 106, 107, 108, 109] ++ [110]) ∧
      ((10 : Nat) = 10 →
        s1._x_points.items = [1, 2, 3, 4, 5, 6, 7, 8, 9] ++ [10] ∧
        s1._y_points.items = [101, 102, 103, 104, 105, 106, 107, 108, 109] ++ [110] ∧
        s1.size = 10) ∧
      s1._x_points.capacity = 10 ∧ s1._y_points.capacity = 10 :=
  pushBack_unbounded_ring_append
    (⟨⟨10, [0, 1, 2, 3, 4, 5, 6, 7, 8, 9]⟩,
      ⟨10, [100, 101, 102, 103, 104, 105, 106, 107, 108, 109]⟩,
      ArithmeticTime.max, 10⟩ : PlotDataGeneric Int Int) ⟨10, 110⟩ (by decide) rfl

/-- C3 as stated fails: with 8 stored samples, `setCapacity 5` clamps the request to
`MIN_CAPACITY = 10` and removes nothing, so 8 samples remain and not the 5 most recent. -/
theorem setCapacity_most_recent_counterexample :
    (5 < (PlotDataGeneric.size
        (⟨⟨1024, [1, 2, 3, 4, 5, 6, 7, 8]⟩, ⟨1024, [11, 12, 13, 14, 15, 16, 17, 18]⟩,
          ArithmeticTime.max, 1024⟩ : PlotDataGeneric Int Int))) ∧
    (PlotDataGeneric.setCapacity
        (⟨⟨1024, [1, 2, 3, 4, 5, 6, 7, 8]⟩, ⟨1024, [11, 12, 13, 14, 15, 16, 17, 18]⟩,
          ArithmeticTime.max, 1024⟩ : PlotDataGeneric Int Int) 5)._x_points.items
      = [1, 2, 3, 4, 5, 6, 7, 8] ∧
    (PlotDataGeneric.setCapacity
        (⟨⟨1024, [1, 2, 3, 4, 5, 6, 7, 8]⟩, ⟨1024, [11, 12, 13, 14, 15, 16, 17, 18]⟩,
          ArithmeticTime.max, 1024⟩ : PlotDataGeneric Int Int) 5)._x_points.items
      ≠ List.drop (8 - 5) [1, 2, 3, 4, 5, 6, 7, 8] := by
  decide

/-- C3, amended: for `c < size()`, `setCapacity c` leaves exactly `min (size()) (max c 10)`
samples, and they are a run of consecutive stored samples in their original order, at the
same positions of the timestamp and of the value sequence. -/
theorem setCapacity_retains_run {Time Value : Type} (s : PlotDataGeneric Time Value)
    (c : Nat) (hwf : s.WellFormed) (hc : c < s.size) :
    (s.setCapacity c).size = min s.size (max c 10) ∧
    ∃ k, (s.setCapacity c)._x_points.items
          = (s._x_points.items.drop k).take (min s.size (max c 10)) ∧
        (s.setCapacity c)._y_points.items
          = (s._y_points.items.drop k).take (min s.size (max c 10)) := by
  obtain ⟨hlen, hcap, hle, hmin, hmax⟩ := hwf
  have hlen2 : s._x_points.items.length = s._y_points.items.length := hlen
  have hle2 : s._x_points.items.length ≤ s._x_points.capacity := hle
  have hc2 : c < s._x_points.items.length := hc
  have hclamp : min (max c MIN_CAPACITY) MAX_CAPACITY = max c 10 := by
    unfold MIN_CAPACITY MAX_CAPACITY at *
    omega
  have hx : (s.setCapacity c)._x_points.items = s._x_points.items.take (max c 10) := by
    simp only [PlotDataGeneric.setCapacity, clamp_eq, hclamp]
    exact set_capacity_items _ _ hle
  have hy : (s.setCapacity c)._y_points.items = s._y_points.items.take (max c 10) := by
    simp only [PlotDataGeneric.setCapacity, clamp_eq, hclamp]
    exact set_capacity_items _ _ (by unfold CircularBuffer.size; omega)
  refine ⟨?_, 0, ?_, ?_⟩
  · unfold PlotDataGeneric.size CircularBuffer.size
    rw [hx, List.length_take]
    omega
  · rw [hx, List.drop_zero]
    unfold PlotDataGeneric.size CircularBuffer.size
    rcases Nat.le_total (max c 10) s._x_points.items.length with h | h
    · rw [Nat.min_eq_right h]
    · rw [Nat.min_eq_left h, List.take_of_length_le h, List.take_of_length_le (le_refl _)]
  · rw [hy, List.drop_zero]
    unfold PlotDataGeneric.size CircularBuffer.size
    rcases Nat.le_total (max c 10) s._x_points.items.length with h | h
    · rw [Nat.min_eq_right h]
    · rw [Nat.min_eq_left h, List.take_of_length_le (by omega),
        List.take_of_length_le (by omega)]

/-- C3, amended, on 12 stored samples and `c = 11`: 11 samples remain. -/
theorem setCapacity_retains_run_witness :
    (PlotDataGeneric.setCapacity
      (⟨⟨1024, [1, 2, 3, 4, 5, 6, 7, 8, 9, 10, 11, 12]⟩,
        ⟨1024, [21, 22, 23, 24, 25, 26, 27, 28, 29, 30, 31, 32]⟩,
        ArithmeticTime.max, 1024⟩ : PlotDataGeneric Int Int) 11).size = min 12 (max 11 10) ∧
    ∃ k, (PlotDataGeneric.setCapacity
      (⟨⟨1024, [1, 2, 3, 4, 5, 6, 7, 8, 9, 10, 11, 12]⟩,
        ⟨1024, [21, 22, 23, 24, 25, 26, 27, 28, 29, 30, 31, 32]⟩,
        ArithmeticTime.max, 1024⟩ : PlotDataGeneric Int Int) 11)._x_points.items
          = (List.drop k [1, 2, 3, 4, 5, 6, 7, 8, 9, 10, 11, 12]).take (min 12 (max 11 10)) ∧
        (PlotDataGeneric.setCapacity
      (⟨⟨1024, [1, 2, 3, 4, 5, 6, 7, 8, 9, 10, 11, 12]⟩,
        ⟨1024, [21, 22, 23, 24, 25, 26, 27, 28, 29, 30, 31, 32]⟩,
        ArithmeticTime.max, 1024⟩ : PlotDataGeneric Int Int) 11)._y_points.items
          = (List.drop k [21, 22, 23, 24, 25, 26, 27, 28, 29, 30, 31, 32]).take
              (min 12 (max 11 10)) :=
  setCapacity_retains_run
    (⟨⟨1024, [1, 2, 3, 4, 5, 6, 7, 8, 9, 10, 11, 12]⟩,
      ⟨1024, [21, 22, 23, 24, 25, 26, 27, 28, 29, 30, 31, 32]⟩,
      ArithmeticTime.max, 1024⟩ : PlotDataGeneric Int Int) 11 (by decide) (by decide)

/-- Which end `setCapacity` cuts: with 12 stored samples and `c = 10` the 10 oldest samples
remain and the 2 newest are removed (`boost::circular_buffer::set_capacity` removes the
last elements), whereas the resize inside `pushBack` pops the oldest samples first. -/
theorem setCapacity_removes_newest_example :
    (PlotDataGeneric.setCapacity
      (⟨⟨1024, [1, 2, 3, 4, 5, 6, 7, 8, 9, 10, 11, 12]⟩,
        ⟨1024, [21, 22, 23, 24, 25, 26, 27, 28, 29, 30, 31, 32]⟩,
        ArithmeticTime.max, 1024⟩ : PlotDataGeneric Int Int) 10)
      = ⟨⟨10, [1, 2, 3, 4, 5, 6, 7, 8, 9, 10]⟩,
         ⟨10, [21, 22, 23, 24, 25, 26, 27, 28, 29, 30]⟩, ArithmeticTime.max, 10⟩ := by
  decide

/-! ## Invariants over call sequences -/

/-- C4: the freshly constructed buffer and every buffer reached from it by a sequence of
calls (`pushBack` with its adaptive resize, `setCapacity`, `setMaximumRangeX` and the
queries) stores as many timestamps as values. -/
theorem timestamps_values_same_length {Time Value : Type} [LinearOrder Time]
    [ArithmeticTime Time] [LinearOrder Value] (cs : List (Call Time Value))
    (s : PlotDataGeneric Time Value) (h : PlotDataGeneric.ctor.calls cs = .ok s) :
    s._x_points.items.length = s._y_points.items.length :=
  (calls_invariant cs PlotDataGeneric.ctor s h ctor_wellFormed
    (by unfold PlotDataGeneric.ctor MIN_CAPACITY MAX_CAPACITY; simp)).1.1

/-- C4 on a run in which the adaptive resize of `pushBack` evicts two samples. -/
theorem timestamps_values_same_length_witness :
    (PlotDataGeneric.ctor : PlotDataGeneric Int Int).calls
        [.pushBack ⟨0, 5⟩, .pushBack ⟨10, 6⟩, .pushBack ⟨20, 7⟩, .pushBack ⟨30, 8⟩,
         .setMaximumRangeX 20, .getRangeY 0 9, .pushBack ⟨40, 9⟩, .setCapacity 2]
      = .ok ⟨⟨10, [20, 30, 40]⟩, ⟨10, [7, 8, 9]⟩, 20, 10⟩
    ∧ [20, 30, (40 : Int)].length = [7, 8, (9 : Int)].length :=
  ⟨by decide,
   timestamps_values_same_length
     ([.pushBack ⟨0, 5⟩, .pushBack ⟨10, 6⟩, .pushBack ⟨20, 7⟩, .pushBack ⟨30, 8⟩,
      .setMaximumRangeX 20, .getRangeY 0 9, .pushBack ⟨40, 9⟩, .setCapacity 2]
        : List (Call Int Int))
     ⟨⟨10, [20, 30, 40]⟩, ⟨10, [7, 8, 9]⟩, 20, 10⟩ (by decide)⟩

/-- C5: in the freshly constructed buffer and after every sequence of calls, the value
reported by `capacity()` and the capacity of each of the two sequences lie in
`[10, 1048576]`. -/
theorem capacity_within_bounds {Time Value : Type} [LinearOrder Time]
    [ArithmeticTime Time] [LinearOrder Value] (cs : List (Call Time Value))
    (s : PlotDataGeneric Time Value) (h : PlotDataGeneric.ctor.calls cs = .ok s) :
    (10 ≤ s.capacity ∧ s.capacity ≤ 1048576) ∧
    (10 ≤ s._x_points.capacity ∧ s._x_points.capacity ≤ 1048576) ∧
    (10 ≤ s._y_points.capacity ∧ s._y_points.capacity ≤ 1048576) := by
  obtain ⟨⟨_, hcap, _, hmin, hmax⟩, hcmin, hcmax⟩ :=
    calls_invariant cs PlotDataGeneric.ctor s h ctor_wellFormed
      (by unfold PlotDataGeneric.ctor MIN_CAPACITY MAX_CAPACITY; simp)
  unfold MIN_CAPACITY MAX_CAPACITY at *
  unfold PlotDataGeneric.capacity
  omega

/-- C5 on a run with capacity requests below and above the bounds and an adaptive
resize. -/
theorem capacity_within_bounds_witness :
    (PlotDataGeneric.ctor : PlotDataGeneric Int Int).calls
        [.setCapacity 0, .setCapacity 5000000, .setMaximumRangeX 100,
         .pushBack ⟨0, 1⟩, .pushBack ⟨1, 2⟩, .pushBack ⟨2, 3⟩]
      = .ok ⟨⟨100, [0, 1, 2]⟩, ⟨100, [1, 2, 3]⟩, 100, 1048576⟩
    ∧ ((10 ≤ 1048576 ∧ 1048576 ≤ 1048576) ∧ (10 ≤ 100 ∧ 100 ≤ 1048576)
      ∧ (10 ≤ 100 ∧ 100 ≤ 1048576)) :=
  ⟨by decide,
   capacity_within_bounds
     ([.setCapacity 0, .setCapacity 5000000, .setMaximumRangeX 100,
      .pushBack ⟨0, 1⟩, .pushBack ⟨1, 2⟩, .pushBack ⟨2, 3⟩] : List (Call Int Int))
     ⟨⟨100, [0, 1, 2]⟩, ⟨100, [1, 2, 3]⟩, 100, 1048576⟩ (by decide)⟩

/-! ## Queries -/

/-- Loop invariant of `getRangeY`: started at index `k` with `n` iterations left inside the
stored values and `y_min ≤ y_max`, the loop returns; the result extends the running
minimum and maximum by the values at `k, ..., k + n - 1`. -/
theorem getRangeY_loop_spec {Value : Type} [LinearOrder Value] (b : CircularBuffer Value) :
    ∀ (n k : Nat) (y_min y_max : Value), k + n ≤ b.items.length → y_min ≤ y_max →
      ∃ r, PlotDataGeneric.getRangeY_loop b n (k : Int) y_min y_max = .ok r ∧
        r.min ≤ y_min ∧ y_max ≤ r.max ∧
        (r.min = y_min ∨ r.min ∈ (b.items.drop k).take n) ∧
        (r.max = y_max ∨ r.max ∈ (b.items.drop k).take n) ∧
        (∀ v ∈ (b.items.drop k).take n, r.min ≤ v ∧ v ≤ r.max) := by
  intro n
  induction n with
  | zero =>
    intro k y_min y_max _ hle
    refine ⟨⟨y_min, y_max⟩, rfl, le_refl _, le_refl _, Or.inl rfl, Or.inl rfl, ?_⟩
    intro v hv
    simp at hv
  | succ n ih =>
    intro k y_min y_max hk hle
    have hklt : k < b.items.length := by omega
    have hat : b.at (k : Int).toNat = .ok b.items[k] := by
      simp [CircularBuffer.at, List.getElem?_eq_getElem hklt]
    have hslice : (b.items.drop k).take (n + 1)
        = b.items[k] :: (b.items.drop (k + 1)).take n := by
      rw [List.drop_eq_getElem_cons hklt, List.take_succ_cons]
    have hnext : ((k : Int) + 1) = ((k + 1 : Nat) : Int) := by push_cast; rfl
    rw [hslice]
    by_cases hlt : b.items[k] < y_min
    · obtain ⟨r, hr, hmin, hmax, hminmem, hmaxmem, hall⟩ :=
        ih (k + 1) b.items[k] y_max (by omega) (le_trans (le_of_lt hlt) hle)
      refine ⟨r, ?_, le_trans hmin (le_of_lt hlt), hmax, ?_, ?_, ?_⟩
      · simp only [PlotDataGeneric.getRangeY_loop, hat, hlt, if_true, hnext]
        exact hr
      · right
        rcases hminmem with h | h
        · rw [h]
          exact List.mem_cons_self _ _
        · exact List.mem_cons_of_mem _ h
      · rcases hmaxmem with h | h
        · exact Or.inl h
        · exact Or.inr (List.mem_cons_of_mem _ h)
      · intro v hv
        rcases List.mem_cons.mp hv with h | h
        · rw [h]
          exact ⟨hmin, le_trans (le_trans (le_of_lt hlt) hle) hmax⟩
        · exact hall v h
    · by_cases hgt : b.items[k] > y_max
      · obtain ⟨r, hr, hmin, hmax, hminmem, hmaxmem, hall⟩ :=
          ih (k + 1) y_min b.items[k] (by omega) (not_lt.mp hlt)
        refine ⟨r, ?_, hmin, le_trans (le_of_lt hgt) hmax, ?_, ?_, ?_⟩
        · simp only [PlotDataGeneric.getRangeY_loop, hat, hlt, if_false, hgt, if_true, hnext]
          exact hr
        · rcases hminmem with h | h
          · exact Or.inl h
          · exact Or.inr (List.mem_cons_of_mem _ h)
        · right
          rcases hmaxmem with h | h
          · rw [h]
            exact List.mem_cons_self _ _
          · exact List.mem_cons_of_mem _ h
        · intro v hv
          rcases List.mem_cons.mp hv with h | h
          · rw [h]
            exact ⟨le_trans hmin (not_lt.mp hlt), hmax⟩
          · exact hall v h
      · obtain ⟨r, hr, hmin, hmax, hminmem, hmaxmem, hall⟩ :=
          ih (k + 1) y_min y_max (by omega) hle
        refine ⟨r, ?_, hmin, hmax, ?_, ?_, ?_⟩
        · simp only [PlotDataGeneric.getRangeY_loop, hat, hlt, if_false, hgt, hnext]
          exact hr
        · rcases hminmem with h | h
          · exact Or.inl h
          · exact Or.inr (List.mem_cons_of_mem _ h)
        · rcases hmaxmem with h | h
          · exact Or.inl h
          · exact Or.inr (List.mem_cons_of_mem _ h)
        · intro v hv
          rcases List.mem_cons.mp hv with h | h
          · rw [h]
            exact ⟨le_trans hmin (not_lt.mp hlt), le_trans (not_lt.mp hgt) hmax⟩
          · exact hall v h

/-- C6: for `0 <= first < last <= size()`, `getRangeY first last` returns a non-empty result
whose `min` is the least and whose `max` is the greatest of the values at the indices
`first, ..., last - 1`. -/
theorem getRangeY_least_greatest {Time Value : Type} [LinearOrder Value]
    (s : PlotDataGeneric Time Value) (first_index last_index : Int)
    (hlen : s._x_points.size = s._y_points.size)
    (h0 : 0 ≤ first_index) (h1 : first_index < last_index)
    (h2 : last_index ≤ (s.size : Int)) :
    ∃ r, s.getRangeY first_index last_index = .ok (some r) ∧
      r.min ∈ (s._y_points.items.drop first_index.toNat).take
        (last_index - first_index).toNat ∧
      (∀ v ∈ (s._y_points.items.drop first_index.toNat).take
        (last_index - first_index).toNat, r.min ≤ v) ∧
      r.max ∈ (s._y_points.items.drop first_index.toNat).take
        (last_index - first_index).toNat ∧
      (∀ v ∈ (s._y_points.items.drop first_index.toNat).take
        (last_index - first_index).toNat, v ≤ r.max) := by
  obtain ⟨f, rfl⟩ := Int.eq_ofNat_of_zero_le h0
  obtain ⟨l, rfl⟩ := Int.eq_ofNat_of_zero_le (le_trans h0 (le_of_lt h1))
  have hfl : f < l := by omega
  have hl : l ≤ s._y_points.items.length := by
    unfold PlotDataGeneric.size CircularBuffer.size at *
    omega
  have hflt : f < s._y_points.items.length := by omega
  have hguard : ¬ ((f : Int) < 0 ∨ (l : Int) < 0 ∨ (f : Int) > (l : Int)) := by omega
  have hat : s._y_points.at (f : Int).toNat = .ok s._y_points.items[f] := by
    simp [CircularBuffer.at, List.getElem?_eq_getElem hflt]
  have hcount : ((l : Int) - ((f : Int) + 1)).toNat = l - f - 1 := by omega
  have hstart : ((f : Int) + 1) = ((f + 1 : Nat) : Int) := by push_cast; rfl
  have hcount2 : ((l : Int) - ((f + 1 : Nat) : Int)).toNat = l - f - 1 := by omega
  have hwidth : ((l : Int) - (f : Int)).toNat = (l - f - 1) + 1 := by omega
  obtain ⟨r, hr, hmin, hmax, hminmem, hmaxmem, hall⟩ :=
    getRangeY_loop_spec s._y_points (l - f - 1) (f + 1) s._y_points.items[f]
      s._y_points.items[f] (by omega) (le_refl _)
  have hslice : (s._y_points.items.drop (f : Int).toNat).take ((l : Int) - (f : Int)).toNat
      = s._y_points.items[f] :: (s._y_points.items.drop (f + 1)).take (l - f - 1) := by
    rw [hwidth, Int.toNat_ofNat, List.drop_eq_getElem_cons hflt, List.take_succ_cons]
  rw [hslice]
  refine ⟨r, ?_, ?_, ?_, ?_, ?_⟩
  · simp only [PlotDataGeneric.getRangeY, hguard, if_false, hat, hcount, hstart, hcount2, hr,
      bind, Except.bind, pure, Except.pure]
  · rcases hminmem with h | h
    · rw [h]
      exact List.mem_cons_self _ _
    · exact List.mem_cons_of_mem _ h
  · intro v hv
    rcases List.mem_cons.mp hv with h | h
    · rw [h]
      exact hmin
    · exact (hall v h).1
  · rcases hmaxmem with h | h
    · rw [h]
      exact List.mem_cons_self _ _
    · exact List.mem_cons_of_mem _ h
  · intro v hv
    rcases List.mem_cons.mp hv with h | h
    · rw [h]
      exact hmax
    · exact (hall v h).2

/-- C6 on the values `[10, 2, 8, 5]`: `getRangeY 1 3` is `(2, 8)`; the value `5` at index 3
is not looked at. -/
theorem getRangeY_least_greatest_witness :
    sampleBuffer.getRangeY 1 3 = .ok (some ⟨2, 8⟩) ∧
    ∃ r, sampleBuffer.getRangeY 1 3 = .ok (some r) ∧
      r.min ∈ (sampleBuffer._y_points.items.drop (1 : Int).toNat).take
        ((3 : Int) - 1).toNat ∧
      (∀ v ∈ (sampleBuffer._y_points.items.drop (1 : Int).toNat).take
        ((3 : Int) - 1).toNat, r.min ≤ v) ∧
      r.max ∈ (sampleBuffer._y_points.items.drop (1 : Int).toNat).take
        ((3 : Int) - 1).toNat ∧
      (∀ v ∈ (sampleBuffer._y_points.items.drop (1 : Int).toNat).take
        ((3 : Int) - 1).toNat, v ≤ r.max) :=
  ⟨by decide,
   getRangeY_least_greatest sampleBuffer 1 3 (by decide) (by decide) (by decide) (by decide)⟩

/-- C7: `getRangeX()` returns empty exactly when fewer than 2 samples are stored; with at
least 2 samples it returns the oldest and the newest stored timestamp as `(min, max)`. -/
theorem getRangeX_front_back {Time Value : Type} (s : PlotDataGeneric Time Value) :
    (s.getRangeX = .ok none ↔ s.size < 2) ∧
    (2 ≤ s.size → ∃ oldest newest, s._x_points.items.head? = some oldest ∧
      s._x_points.items.getLast? = some newest ∧
      s.getRangeX = .ok (some ⟨oldest, newest⟩)) := by
  have hsome : 2 ≤ s.size → ∃ oldest newest, s._x_points.items.head? = some oldest ∧
      s._x_points.items.getLast? = some newest ∧
      s.getRangeX = .ok (some ⟨oldest, newest⟩) := by
    intro h2
    have hlen : 2 ≤ s._x_points.items.length := h2
    have hnot : ¬ s._x_points.size < 2 := by
      unfold CircularBuffer.size
      omega
    cases hh : s._x_points.items.head? with
    | none =>
      rw [List.head?_eq_none_iff] at hh
      rw [hh] at hlen
      simp at hlen
    | some oldest =>
      cases hl : s._x_points.items.getLast? with
      | none =>
        rw [List.getLast?_eq_none_iff] at hl
        rw [hl] at hlen
        simp at hlen
      | some newest =>
        refine ⟨oldest, newest, rfl, rfl, ?_⟩
        simp [PlotDataGeneric.getRangeX, hnot, CircularBuffer.front, CircularBuffer.back,
          hh, hl, bind, Except.bind, pure, Except.pure]
  refine ⟨⟨?_, ?_⟩, hsome⟩
  · intro hnone
    by_contra hcon
    obtain ⟨oldest, newest, _, _, hr⟩ := hsome (by omega)
    rw [hr] at hnone
    cases hnone
  · intro hlt
    have hlt2 : s._x_points.size < 2 := hlt
    simp [PlotDataGeneric.getRangeX, hlt2]

/-- C9: on a non-empty buffer `at index` returns the sample stored at `index` when
`index < size()`, and otherwise does not fail and returns the last stored sample; the call
leaves the buffer as it is. -/
theorem at_clamps_to_last {Time Value : Type} (s : PlotDataGeneric Time Value) (index : Nat)
    (hne : s.size ≠ 0) (hlen : s._x_points.size = s._y_points.size) :
    (index < s.size → ∃ t v, s._x_points.items[index]? = some t ∧
      s._y_points.items[index]? = some v ∧ s.at index = .ok ⟨t, v⟩) ∧
    (s.size ≤ index → ∃ t v, s._x_points.items.getLast? = some t ∧
      s._y_points.items.getLast? = some v ∧ s.at index = .ok ⟨t, v⟩) ∧
    afterQuery s (s.at index) = .ok s := by
  have hxl : s._x_points.items.length ≠ 0 := hne
  have hyl : s._x_points.items.length = s._y_points.items.length := hlen
  have hin : index < s.size → ∃ t v, s._x_points.items[index]? = some t ∧
      s._y_points.items[index]? = some v ∧ s.at index = .ok ⟨t, v⟩ := by
    intro hlt
    have hltx : index < s._x_points.items.length := hlt
    have hlty : index < s._y_points.items.length := by omega
    refine ⟨s._x_points.items[index], s._y_points.items[index],
      List.getElem?_eq_getElem hltx, List.getElem?_eq_getElem hlty, ?_⟩
    simp [PlotDataGeneric.at, CircularBuffer.at, List.getElem?_eq_getElem hltx,
      List.getElem?_eq_getElem hlty, bind, Except.bind, pure, Except.pure]
  have hout : s.size ≤ index → ∃ t v, s._x_points.items.getLast? = some t ∧
      s._y_points.items.getLast? = some v ∧ s.at index = .ok ⟨t, v⟩ := by
    intro hge
    have hgex : s._x_points.items.length ≤ index := hge
    cases hlx : s._x_points.items.getLast? with
    | none =>
      rw [List.getLast?_eq_none_iff] at hlx
      rw [hlx] at hxl
      simp at hxl
    | some t =>
      cases hly : s._y_points.items.getLast? with
      | none =>
        rw [List.getLast?_eq_none_iff] at hly
        have hzero : s._y_points.items.length = 0 := by
          rw [hly]
          rfl
        omega
      | some v =>
        refine ⟨t, v, rfl, rfl, ?_⟩
        simp [PlotDataGeneric.at, CircularBuffer.at, List.getElem?_eq_none hgex,
          CircularBuffer.back, hlx, hly, bind, Except.bind, pure, Except.pure]
  refine ⟨hin, hout, ?_⟩
  rcases Nat.lt_or_ge index s.size with h | h
  · obtain ⟨t, v, _, _, hr⟩ := hin h
    rw [hr]
    rfl
  · obtain ⟨t, v, _, _, hr⟩ := hout h
    rw [hr]
    rfl

/-- C9 on the buffer with timestamps `[1, 3, 5, 7]` and values `[10, 2, 8, 5]`: index 9 is
out of range and yields the last sample `(7, 5)`. -/
theorem at_clamps_to_last_witness :
    (sampleBuffer.at 1 = .ok ⟨3, 2⟩ ∧ sampleBuffer.at 9 = .ok ⟨7, 5⟩) ∧
    ((9 < sampleBuffer.size → ∃ t v, sampleBuffer._x_points.items[9]? = some t ∧
      sampleBuffer._y_points.items[9]? = some v ∧ sampleBuffer.at 9 = .ok ⟨t, v⟩) ∧
    (sampleBuffer.size ≤ 9 → ∃ t v, sampleBuffer._x_points.items.getLast? = some t ∧
      sampleBuffer._y_points.items.getLast? = some v ∧ sampleBuffer.at 9 = .ok ⟨t, v⟩) ∧
    afterQuery sampleBuffer (sampleBuffer.at 9) = .ok sampleBuffer) :=
  ⟨by decide, at_clamps_to_last sampleBuffer 9 (by decide) (by decide)⟩

/-- The position found by `lower_bound` in the empty list is 0. -/
theorem lower_bound_nil {α : Type} [LinearOrder α] (val : α) :
    lower_bound ([] : List α) val = 0 := by
  simp [lower_bound, lower_bound_loop]

/-- C10: on every buffer, empty or not, `getYfromX x` is empty exactly when
`getIndexFromX x` is `-1`, and otherwise it is the value stored at the index
`getIndexFromX x`. -/
theorem getYfromX_agrees_with_getIndexFromX {Time Value : Type} [LinearOrder Time]
    (s : PlotDataGeneric Time Value) (x : Time)
    (hlen : s._x_points.size = s._y_points.size) :
    (s.getYfromX x = .ok none ↔ s.getIndexFromX x = -1) ∧
    (s.getIndexFromX x ≠ -1 → ∃ v,
      s._y_points.items[(s.getIndexFromX x).toNat]? = some v ∧
      s.getYfromX x = .ok (some v)) := by
  have hyl : s._x_points.items.length = s._y_points.items.length := hlen
  by_cases hout : ((lower_bound s._x_points.items x : Int) ≥ (s._x_points.size : Int)
      ∨ (lower_bound s._x_points.items x : Int) < 0)
  · have hy : s.getYfromX x = .ok none := by
      simp only [PlotDataGeneric.getYfromX, hout, if_true]
    have hi : s.getIndexFromX x = -1 := by
      by_cases hsize : s._x_points.size = 0
      · simp only [PlotDataGeneric.getIndexFromX, hsize, if_true]
      · simp only [PlotDataGeneric.getIndexFromX, hsize, if_false, hout, if_true]
    exact ⟨⟨fun _ => hi, fun _ => hy⟩, fun hcon => absurd hi hcon⟩
  · have hsize : s._x_points.size ≠ 0 := by
      intro hzero
      apply hout
      left
      rw [hzero]
      have hnil : s._x_points.items = [] := List.length_eq_zero.mp hzero
      rw [hnil, lower_bound_nil]
    have hi : s.getIndexFromX x = (lower_bound s._x_points.items x : Int) := by
      simp only [PlotDataGeneric.getIndexFromX, hsize, if_false, hout]
    have hlt : lower_bound s._x_points.items x < s._y_points.items.length := by
      unfold CircularBuffer.size at hout
      omega
    have hy : s.getYfromX x
        = .ok (some (s._y_points.items[lower_bound s._x_points.items x])) := by
      have hltx : lower_bound s._x_points.items x < s._x_points.size := by
        unfold CircularBuffer.size
        omega
      simp [PlotDataGeneric.getYfromX, hltx, CircularBuffer.at,
        List.getElem?_eq_getElem hlt, bind, Except.bind, pure, Except.pure]
    refine ⟨⟨?_, ?_⟩, ?_⟩
    · intro hnone
      rw [hy] at hnone
      simp at hnone
    · intro hneg
      rw [hi] at hneg
      omega
    · intro _
      refine ⟨s._y_points.items[lower_bound s._x_points.items x], ?_, hy⟩
      rw [hi, Int.toNat_ofNat]
      exact List.getElem?_eq_getElem hlt

/-- C10 on the buffer with timestamps `[1, 3, 5, 7]` and values `[10, 2, 8, 5]` at
`x = 4`: the index is 2 and the value is 8. -/
theorem getYfromX_agrees_with_getIndexFromX_witness :
    (sampleBuffer.getIndexFromX 4 = 2 ∧ sampleBuffer.getYfromX 4 = .ok (some 8)) ∧
    ((sampleBuffer.getYfromX 4 = .ok none ↔ sampleBuffer.getIndexFromX 4 = -1) ∧
    (sampleBuffer.getIndexFromX 4 ≠ -1 → ∃ v,
      sampleBuffer._y_points.items[(sampleBuffer.getIndexFromX 4).toNat]? = some v ∧
      sampleBuffer.getYfromX 4 = .ok (some v))) :=
  ⟨by decide, getYfromX_agrees_with_getIndexFromX sampleBuffer 4 (by decide)⟩

/-! ## A steady stream under `setMaximumRangeX 100` -/

/-- Pushing a list of points followed by one more point. -/
theorem pushBackAll_concat {Time Value : Type} [DecidableEq Time] [ArithmeticTime Time]
    (ps : List (Point Time Value)) (p : Point Time Value) :
    ∀ (s s1 : PlotDataGeneric Time Value), s.pushBackAll ps = .ok s1 →
      s.pushBackAll (ps ++ [p]) = s1.pushBack p := by
  induction ps with
  | nil =>
    intro s s1 h
    simp only [PlotDataGeneric.pushBackAll, Except.ok.injEq] at h
    subst h
    simp only [List.nil_append, PlotDataGeneric.pushBackAll]
    cases s.pushBack p <;> rfl
  | cons q rest ih =>
    intro s s1 h
    simp only [List.cons_append, PlotDataGeneric.pushBackAll] at h ⊢
    cases hq : s.pushBack q with
    | error e =>
      rw [hq] at h
      cases h
    | ok s2 =>
      rw [hq] at h
      exact ih s2 s1 h

/-- The elements of `List.range n` from position `d` on. -/
theorem range_drop (n d : Nat) (h : d ≤ n) :
    (List.range n).drop d = List.range' d (n - d) := by
  have hsplit : List.range' 0 n = List.range' 0 d ++ List.range' (0 + 1 * d) (n - d) := by
    rw [List.range'_append]
    congr 1
    omega
  rw [List.range_eq_range', hsplit, List.drop_left' (List.length_range' _ _ _)]
  congr 1
  omega

/-- Appending the next element to a window `g a, ..., g (a + m - 1)` held by a buffer that
is not full. -/
theorem push_back_window_of_lt {α : Type} (g : Nat → α) (b : CircularBuffer α) (a m : Nat)
    (hitems : b.items = (List.range' a m).map g) (hlt : m < b.capacity) :
    (b.push_back (g (a + m))).items = (List.range' a (m + 1)).map g := by
  have hsize : b.size = m := by
    unfold CircularBuffer.size
    rw [hitems, List.length_map, List.length_range']
  rw [push_back_items_of_lt b _ (by omega), hitems, List.range'_concat, List.map_append]
  simp

/-- Appending the next element to a window `g a, ..., g (a + m - 1)` held by a full
buffer: the window moves by one. -/
theorem push_back_window_of_full {α : Type} (g : Nat → α) (b : CircularBuffer α) (a m : Nat)
    (hitems : b.items = (List.range' a m).map g) (hfull : m = b.capacity) (hpos : 0 < m) :
    (b.push_back (g (a + m))).items = (List.range' (a + 1) m).map g := by
  have hsize : b.size = m := by
    unfold CircularBuffer.size
    rw [hitems, List.length_map, List.length_range']
  obtain ⟨k, rfl⟩ : ∃ k, m = k + 1 := ⟨m - 1, by omega⟩
  rw [push_back_items_of_full b _ (by omega) (by omega), hitems, ← List.map_tail,
    List.tail_range', List.range'_concat, List.map_append]
  simp only [Nat.add_sub_cancel, List.map_cons, List.map_nil, Nat.one_mul]
  congr 3
  omega

/-- On a window of at least two timestamps spaced by 10, with `_max_range_X = 100`, the
capacity proposed by `pushBack` is 10. -/
theorem proposedCapacity_steady {Value : Type} (s : PlotDataGeneric Int Value) (t0 : Int)
    (a m : Nat) (hitems : s._x_points.items
      = (List.range' a m).map (fun (k : Nat) => t0 + 10 * (k : Int)))
    (hm : 2 ≤ m) (hrange : s._max_range_X = 100) :
    s.proposedCapacity = .ok 10 := by
  have hsize : s._x_points.size = m := by
    unfold CircularBuffer.size
    rw [hitems, List.length_map, List.length_range']
  have hm0 : ¬ m = 0 := by omega
  have hfront : s._x_points.front = .ok (t0 + 10 * (a : Int)) := by
    simp [CircularBuffer.front, hitems, List.head?_range', hm0]
  have hback : s._x_points.back = .ok (t0 + 10 * ((a + m - 1 : Nat) : Int)) := by
    simp [CircularBuffer.back, hitems, List.getLast?_range', hm0]
  have hnum : t0 + 10 * ((a + m - 1 : Nat) : Int) - (t0 + 10 * (a : Int))
      = 10 * ((m : Int) - 1) := by omega
  have hden : ((m : Int) - 1) ≠ 0 := by omega
  have hdelta : s.delta = .ok 10 := by
    simp only [PlotDataGeneric.delta, hfront, hback, hsize, bind, Except.bind,
      ArithmeticTime.sub, ArithmeticTime.div, ArithmeticTime.ofLong, hnum, hden, if_false,
      Int.mul_tdiv_cancel 10 hden]
  simp only [PlotDataGeneric.proposedCapacity, hdelta, hrange, bind, Except.bind,
    ArithmeticTime.div, ArithmeticTime.toUnsigned]
  decide

/-- The adaptive block of `pushBack` on the state reached after `n` pushes of the steady
stream: it succeeds, keeps the stored samples, and sets the capacity of both sequences to
10 as soon as two samples are stored. -/
theorem adapt_steady {Value : Type} (s : PlotDataGeneric Int Value) (t0 : Int)
    (value : Nat → Value) (n : Nat) (hrange : s._max_range_X = 100)
    (hxcap : s._x_points.capacity = if n < 3 then 1024 else 10)
    (hycap : s._y_points.capacity = if n < 3 then 1024 else 10)
    (hx : s._x_points.items = (List.range' (n - min n 10) (min n 10)).map
      (fun (k : Nat) => t0 + 10 * (k : Int)))
    (hy : s._y_points.items = (List.range' (n - min n 10) (min n 10)).map value) :
    ∃ sa, s.adapt = .ok sa ∧ sa._max_range_X = 100 ∧
      sa._x_points.items = s._x_points.items ∧ sa._y_points.items = s._y_points.items ∧
      sa._x_points.capacity = (if n < 2 then 1024 else 10) ∧
      sa._y_points.capacity = (if n < 2 then 1024 else 10) := by
  have hxsize : s._x_points.size = min n 10 := by
    unfold CircularBuffer.size
    rw [hx, List.length_map, List.length_range']
  have hysize : s._y_points.size = min n 10 := by
    unfold CircularBuffer.size
    rw [hy, List.length_map, List.length_range']
  by_cases hn2 : n < 2
  · have hn3 : n < 3 := by omega
    have htrig : s.adaptiveTrigger = false := by
      have hsmall : ¬ 2 ≤ min n 10 := by omega
      simp [PlotDataGeneric.adaptiveTrigger, hxsize, hsmall]
    refine ⟨s, ?_, hrange, rfl, rfl, ?_, ?_⟩
    · simp [PlotDataGeneric.adapt, htrig, pure, Except.pure]
    · rw [hxcap, if_pos hn3, if_pos hn2]
    · rw [hycap, if_pos hn3, if_pos hn2]
  · have hprop : s.proposedCapacity = .ok 10 :=
      proposedCapacity_steady s t0 (n - min n 10) (min n 10) hx (by omega) hrange
    have hne : (100 : Int) ≠ ArithmeticTime.max := by decide
    by_cases hn3 : n < 3
    · have hn : n = 2 := by omega
      subst hn
      rw [if_pos hn3] at hxcap hycap
      have htrig : s.adaptiveTrigger = true := by
        simp [PlotDataGeneric.adaptiveTrigger, hxsize, hxcap, hrange, hne, MIN_CAPACITY,
          MAX_CAPACITY]
      have hbig : Int.natAbs (((10 : Nat) : Int) - ((s._x_points.capacity : Nat) : Int))
          > (s._x_points.capacity * 2) / 100 := by
        rw [hxcap]
        decide
      have hadapt : s.adapt = s.applyNewCapacity 10 := by
        simp only [PlotDataGeneric.adapt, htrig, if_true, hprop, bind, Except.bind, hbig]
      rw [hadapt, applyNewCapacity_eq s 10 (by rw [hxsize, hysize])]
      refine ⟨_, rfl, hrange, ?_, ?_, ?_, ?_⟩
      · show (CircularBuffer.set_capacity _ _).items = _
        rw [set_capacity_items _ _ (by
          simp only [CircularBuffer.size, List.length_drop, hxcap]
          have hl : s._x_points.items.length = 2 := hxsize
          omega)]
        have hl : s._x_points.items.length = 2 := hxsize
        simp only [hxsize, MIN_CAPACITY, MAX_CAPACITY]
        rw [List.take_of_length_le (by simp only [List.length_drop]; omega)]
        rfl
      · show (CircularBuffer.set_capacity _ _).items = _
        rw [set_capacity_items _ _ (by
          simp only [CircularBuffer.size, List.length_drop, hycap]
          have hl : s._y_points.items.length = 2 := hysize
          omega)]
        have hl : s._y_points.items.length = 2 := hysize
        simp only [hxsize, MIN_CAPACITY, MAX_CAPACITY]
        rw [List.take_of_length_le (by simp only [List.length_drop]; omega)]
        rfl
      · show (CircularBuffer.set_capacity _ _).capacity = _
        rw [set_capacity_capacity]
        decide
      · show (CircularBuffer.set_capacity _ _).capacity = _
        rw [set_capacity_capacity]
        decide
    · rw [if_neg hn3] at hxcap hycap
      have hsmall : ¬ Int.natAbs (((10 : Nat) : Int) - ((s._x_points.capacity : Nat) : Int))
          > (s._x_points.capacity * 2) / 100 := by
        rw [hxcap]
        decide
      have hadapt : s.adapt = .ok s := by
        by_cases htrig : s.adaptiveTrigger = true
        · simp only [PlotDataGeneric.adapt, htrig, if_true, hprop, bind, Except.bind, hsmall,
            if_false, pure, Except.pure]
        · simp only [PlotDataGeneric.adapt, htrig, if_false, pure, Except.pure]
          rfl
      refine ⟨s, hadapt, hrange, rfl, rfl, ?_, ?_⟩
      · rw [hxcap, if_neg hn2]
      · rw [hycap, if_neg hn2]

/-- One push of the steady stream: from the state after `n` pushes to the state after
`n + 1` pushes. -/
theorem pushBack_steady {Value : Type} (s : PlotDataGeneric Int Value) (t0 : Int)
    (value : Nat → Value) (n : Nat) (hrange : s._max_range_X = 100)
    (hxcap : s._x_points.capacity = if n < 3 then 1024 else 10)
    (hycap : s._y_points.capacity = if n < 3 then 1024 else 10)
    (hx : s._x_points.items = (List.range' (n - min n 10) (min n 10)).map
      (fun (k : Nat) => t0 + 10 * (k : Int)))
    (hy : s._y_points.items = (List.range' (n - min n 10) (min n 10)).map value) :
    ∃ s1, s.pushBack ⟨t0 + 10 * (n : Int), value n⟩ = .ok s1 ∧ s1._max_range_X = 100 ∧
      s1._x_points.capacity = (if n + 1 < 3 then 1024 else 10) ∧
      s1._y_points.capacity = (if n + 1 < 3 then 1024 else 10) ∧
      s1._x_points.items = (List.range' (n + 1 - min (n + 1) 10) (min (n + 1) 10)).map
        (fun (k : Nat) => t0 + 10 * (k : Int)) ∧
      s1._y_points.items
        = (List.range' (n + 1 - min (n + 1) 10) (min (n + 1) 10)).map value := by
  obtain ⟨sa, hadapt, harange, hax, hay, haxcap, haycap⟩ :=
    adapt_steady s t0 value n hrange hxcap hycap hx hy
  rw [hx] at hax
  rw [hy] at hay
  have hsum : n - min n 10 + min n 10 = n := by omega
  have hpx : (⟨t0 + 10 * (n : Int), value n⟩ : Point Int Value).x
      = (fun (k : Nat) => t0 + 10 * (k : Int)) (n - min n 10 + min n 10) := by
    simp only [hsum]
  have hpy : (⟨t0 + 10 * (n : Int), value n⟩ : Point Int Value).y
      = value (n - min n 10 + min n 10) := by
    simp only [hsum]
  refine ⟨_, pushBack_of_adapt s sa _ hadapt, harange, ?_, ?_, ?_, ?_⟩
  · show (sa._x_points.push_back _).capacity = _
    rw [push_back_capacity, haxcap]
    by_cases hn2 : n < 2
    · rw [if_pos hn2, if_pos (by omega)]
    · rw [if_neg hn2, if_neg (by omega)]
  · show (sa._y_points.push_back _).capacity = _
    rw [push_back_capacity, haycap]
    by_cases hn2 : n < 2
    · rw [if_pos hn2, if_pos (by omega)]
    · rw [if_neg hn2, if_neg (by omega)]
  · show (sa._x_points.push_back _).items = _
    rw [hpx]
    by_cases hn10 : n < 10
    · have hlt : min n 10 < sa._x_points.capacity := by
        rw [haxcap]
        split <;> omega
      rw [push_back_window_of_lt _ sa._x_points _ _ hax hlt]
      congr 2 <;> omega
    · have hfull : min n 10 = sa._x_points.capacity := by
        rw [haxcap, if_neg (by omega)]
        omega
      rw [push_back_window_of_full _ sa._x_points _ _ hax hfull (by omega)]
      congr 2 <;> omega
  · show (sa._y_points.push_back _).items = _
    rw [hpy]
    by_cases hn10 : n < 10
    · have hlt : min n 10 < sa._y_points.capacity := by
        rw [haycap]
        split <;> omega
      rw [push_back_window_of_lt _ sa._y_points _ _ hay hlt]
      congr 2 <;> omega
    · have hfull : min n 10 = sa._y_points.capacity := by
        rw [haycap, if_neg (by omega)]
        omega
      rw [push_back_window_of_full _ sa._y_points _ _ hay hfull (by omega)]
      congr 2 <;> omega

/-- The steady stream extended by one sample. -/
theorem steadySamples_succ {Value : Type} (t0 : Int) (value : Nat → Value) (n : Nat) :
    steadySamples t0 value (n + 1)
      = steadySamples t0 value n ++ [⟨t0 + 10 * (n : Int), value n⟩] := by
  simp [steadySamples, List.range_succ]

/-- State of the buffer after `n` pushes of the steady stream, as a window of the
stream. -/
theorem pushBackAll_steady {Value : Type} (t0 : Int) (value : Nat → Value) :
    ∀ n : Nat, ∃ s : PlotDataGeneric Int Value,
      (PlotDataGeneric.ctor.setMaximumRangeX 100).pushBackAll (steadySamples t0 value n)
        = .ok s ∧
      s._max_range_X = 100 ∧
      s._x_points.capacity = (if n < 3 then 1024 else 10) ∧
      s._y_points.capacity = (if n < 3 then 1024 else 10) ∧
      s._x_points.items = (List.range' (n - min n 10) (min n 10)).map
        (fun (k : Nat) => t0 + 10 * (k : Int)) ∧
      s._y_points.items = (List.range' (n - min n 10) (min n 10)).map value := by
  intro n
  induction n with
  | zero =>
    exact ⟨PlotDataGeneric.ctor.setMaximumRangeX 100, rfl, rfl, rfl, rfl, rfl, rfl⟩
  | succ n ih =>
    obtain ⟨s, hrun, hrange, hxcap, hycap, hx, hy⟩ := ih
    obtain ⟨s1, hpush, h1⟩ := pushBack_steady s t0 value n hrange hxcap hycap hx hy
    refine ⟨s1, ?_, h1⟩
    rw [steadySamples_succ, pushBackAll_concat _ _ _ s hrun, hpush]

/-- C8: after `setMaximumRangeX 100` on a fresh buffer, pushing the samples with
timestamps `t0, t0 + 10, t0 + 20, ...` one by one always succeeds; from the third push on
the capacity of both sequences is exactly 10; and after `n` pushes the buffer holds
exactly the `min n 10` most recent samples, in push order. -/
theorem steady_stream_converges {Value : Type} (t0 : Int) (value : Nat → Value) (n : Nat) :
    ∃ s : PlotDataGeneric Int Value,
      (PlotDataGeneric.ctor.setMaximumRangeX 100).pushBackAll (steadySamples t0 value n)
        = .ok s ∧
      (3 ≤ n → s._x_points.capacity = 10 ∧ s._y_points.capacity = 10) ∧
      s._x_points.items
        = ((steadySamples t0 value n).map Point.x).drop (n - min n 10) ∧
      s._y_points.items
        = ((steadySamples t0 value n).map Point.y).drop (n - min n 10) ∧
      s.size = min n 10 := by
  obtain ⟨s, hrun, _, hxcap, hycap, hx, hy⟩ := pushBackAll_steady t0 value n
  have hwidth : n - (n - min n 10) = min n 10 := by omega
  refine ⟨s, hrun, ?_, ?_, ?_, ?_⟩
  · intro h3
    rw [hxcap, hycap, if_neg (by omega)]
    exact ⟨rfl, rfl⟩
  · rw [hx]
    simp only [steadySamples, List.map_map]
    rw [← List.map_drop, range_drop n _ (by omega), hwidth]
    rfl
  · rw [hy]
    simp only [steadySamples, List.map_map]
    rw [← List.map_drop, range_drop n _ (by omega), hwidth]
    rfl
  · unfold PlotDataGeneric.size CircularBuffer.size
    rw [hx, List.length_map, List.length_range']

/-! ## `setCapacity`: clamping and frame -/

/-- The elements are untouched by `set_capacity n` when `n` is at least their number. -/
theorem set_capacity_items_of_le {α : Type} (b : CircularBuffer α) (n : Nat)
    (h : b.size ≤ n) : (b.set_capacity n).items = b.items := by
  unfold CircularBuffer.set_capacity
  split
  · rfl
  · show b.items.take (min n b.size) = b.items
    rw [Nat.min_eq_right h]
    exact List.take_of_length_le (le_refl _)

/-- C11: for every buffer and every requested capacity `n`, after `setCapacity n` the value
reported by `capacity()` and the capacity of both sequences are `n` clamped into
`[10, 1048576]`; `setCapacity` is a total function of the state and the request. -/
theorem setCapacity_clamps_request {Time Value : Type} (s : PlotDataGeneric Time Value)
    (n : Nat) :
    (s.setCapacity n).capacity = min (max n 10) 1048576 ∧
    (s.setCapacity n)._x_points.capacity = min (max n 10) 1048576 ∧
    (s.setCapacity n)._y_points.capacity = min (max n 10) 1048576 := by
  have hclamp : min (max n MIN_CAPACITY) MAX_CAPACITY = min (max n 10) 1048576 := rfl
  simp only [PlotDataGeneric.setCapacity, PlotDataGeneric.capacity, clamp_eq, hclamp]
  refine ⟨trivial, ?_, ?_⟩
  · exact set_capacity_capacity _ _
  · exact set_capacity_capacity _ _

/-- C18: when the clamped request is at least `size()`, `setCapacity n` leaves the stored
timestamps, the stored values and `_max_range_X` as they are. -/
theorem setCapacity_keeps_samples {Time Value : Type} (s : PlotDataGeneric Time Value)
    (n : Nat) (hlen : s._x_points.size = s._y_points.size)
    (hfit : s.size ≤ min (max n 10) 1048576) :
    (s.setCapacity n)._x_points.items = s._x_points.items ∧
    (s.setCapacity n)._y_points.items = s._y_points.items ∧
    (s.setCapacity n)._max_range_X = s._max_range_X := by
  have hclamp : min (max n MIN_CAPACITY) MAX_CAPACITY = min (max n 10) 1048576 := rfl
  have hx : s._x_points.size ≤ min (max n 10) 1048576 := hfit
  have hy : s._y_points.size ≤ min (max n 10) 1048576 := by omega
  simp only [PlotDataGeneric.setCapacity, clamp_eq, hclamp]
  exact ⟨set_capacity_items_of_le _ _ hx, set_capacity_items_of_le _ _ hy, trivial⟩

/-- C18 on the buffer with timestamps `[1, 3, 5, 7]`: the request 2 is clamped to 10, which
is at least the 4 stored samples, and nothing is removed. -/
theorem setCapacity_keeps_samples_witness :
    (sampleBuffer.setCapacity 2)._x_points.items = [1, 3, 5, 7] ∧
    (sampleBuffer.setCapacity 2)._y_points.items = [10, 2, 8, 5] ∧
    (sampleBuffer.setCapacity 2)._max_range_X = sampleBuffer._max_range_X :=
  setCapacity_keeps_samples sampleBuffer 2 (by decide) (by decide)

/-! ## `getRangeY` on degenerate ranges -/

/-- C20: for `0 <= i < size()`, both `getRangeY i i` and `getRangeY i (i + 1)` return the
non-empty result `(values[i], values[i])`. -/
theorem getRangeY_single_index {Time Value : Type} [LinearOrder Value]
    (s : PlotDataGeneric Time Value) (i : Int)
    (hlen : s._x_points.size = s._y_points.size)
    (h0 : 0 ≤ i) (h1 : i < (s.size : Int)) :
    ∃ v, s._y_points.items[i.toNat]? = some v ∧
      s.getRangeY i i = .ok (some ⟨v, v⟩) ∧
      s.getRangeY i (i + 1) = .ok (some ⟨v, v⟩) := by
  obtain ⟨k, rfl⟩ := Int.eq_ofNat_of_zero_le h0
  have hk : k < s._y_points.items.length := by
    unfold PlotDataGeneric.size CircularBuffer.size at *
    omega
  have hat : s._y_points.at (k : Int).toNat = .ok s._y_points.items[k] := by
    simp [CircularBuffer.at, List.getElem?_eq_getElem hk]
  have hguard1 : ¬ ((k : Int) < 0 ∨ (k : Int) < 0 ∨ (k : Int) > (k : Int)) := by omega
  have hguard2 : ¬ ((k : Int) < 0 ∨ (k : Int) + 1 < 0 ∨ (k : Int) > (k : Int) + 1) := by
    omega
  have hcount1 : ((k : Int) - ((k : Int) + 1)).toNat = 0 := by omega
  have hcount2 : ((k : Int) + 1 - ((k : Int) + 1)).toNat = 0 := by omega
  refine ⟨s._y_points.items[k], ?_, ?_, ?_⟩
  · rw [Int.toNat_ofNat]
    exact List.getElem?_eq_getElem hk
  · simp only [PlotDataGeneric.getRangeY, hguard1, if_false, hat, hcount1,
      PlotDataGeneric.getRangeY_loop, bind, Except.bind, pure, Except.pure]
  · simp only [PlotDataGeneric.getRangeY, hguard2, if_false, hat, hcount2,
      PlotDataGeneric.getRangeY_loop, bind, Except.bind, pure, Except.pure]

/-- C20 on the values `[10, 2, 8, 5]` at index 2: both calls return `(8, 8)`. -/
theorem getRangeY_single_index_witness :
    ∃ v, sampleBuffer._y_points.items[(2 : Int).toNat]? = some v ∧
      sampleBuffer.getRangeY 2 2 = .ok (some ⟨v, v⟩) ∧
      sampleBuffer.getRangeY 2 (2 + 1) = .ok (some ⟨v, v⟩) :=
  getRangeY_single_index sampleBuffer 2 (by decide) (by decide) (by decide)

/-! ## Where the code departs from its contract -/

/-- C12 fails on the code: `pushBack` resizes the two sequences without assigning
`_capacity`.  After `setCapacity 10`, `setMaximumRangeX 100` and eleven samples spaced by 1,
the sequences have capacity 100 and hold 11 samples while `capacity()` still reports 10. -/
theorem capacity_stale_after_adaptive_resize :
    (PlotDataGeneric.ctor : PlotDataGeneric Int Int).calls
        [.setCapacity 10, .setMaximumRangeX 100,
         .pushBack ⟨0, 0⟩, .pushBack ⟨1, 0⟩, .pushBack ⟨2, 0⟩, .pushBack ⟨3, 0⟩,
         .pushBack ⟨4, 0⟩, .pushBack ⟨5, 0⟩, .pushBack ⟨6, 0⟩, .pushBack ⟨7, 0⟩,
         .pushBack ⟨8, 0⟩, .pushBack ⟨9, 0⟩, .pushBack ⟨10, 0⟩]
      = .ok ⟨⟨100, [0, 1, 2, 3, 4, 5, 6, 7, 8, 9, 10]⟩,
             ⟨100, [0, 0, 0, 0, 0, 0, 0, 0, 0, 0, 0]⟩, 100, 10⟩ ∧
    PlotDataGeneric.capacity
      (⟨⟨100, [0, 1, 2, 3, 4, 5, 6, 7, 8, 9, 10]⟩,
        ⟨100, [0, 0, 0, 0, 0, 0, 0, 0, 0, 0, 0]⟩, 100, 10⟩ : PlotDataGeneric Int Int) = 10 ∧
    PlotDataGeneric.size
      (⟨⟨100, [0, 1, 2, 3, 4, 5, 6, 7, 8, 9, 10]⟩,
        ⟨100, [0, 0, 0, 0, 0, 0, 0, 0, 0, 0, 0]⟩, 100, 10⟩ : PlotDataGeneric Int Int) = 11 := by
  decide

/-- C13 fails on the code: on the freshly constructed, empty buffer `getRangeY` with the
default arguments `(0, INT_MAX)`, and with `(0, 0)`, passes the index guard and then
`_y_points.at(0)` throws `std::out_of_range`, which `getRangeY` does not catch. -/
theorem getRangeY_empty_buffer_throws :
    (PlotDataGeneric.ctor : PlotDataGeneric Int Int).getRangeY 0 2147483647
      = .error .out_of_range ∧
    (PlotDataGeneric.ctor : PlotDataGeneric Int Int).getRangeY 0 0
      = .error .out_of_range := by
  decide

/-- The loop of `getRangeY` throws `std::out_of_range` as soon as its index range reaches
past the stored values. -/
theorem getRangeY_loop_past_end {Value : Type} [LinearOrder Value] (b : CircularBuffer Value) :
    ∀ (n k : Nat) (y_min y_max : Value), k ≤ b.items.length → b.items.length < k + n →
      PlotDataGeneric.getRangeY_loop b n (k : Int) y_min y_max = .error .out_of_range := by
  intro n
  induction n with
  | zero =>
    intro k y_min y_max hk hlen
    omega
  | succ n ih =>
    intro k y_min y_max hk hlen
    have hnext : ((k : Int) + 1) = ((k + 1 : Nat) : Int) := by push_cast; rfl
    rcases Nat.eq_or_lt_of_le hk with heq | hlt
    · have hat : b.at (k : Int).toNat = .error .out_of_range := by
        simp [CircularBuffer.at, List.getElem?_eq_none (le_of_eq heq.symm)]
      simp only [PlotDataGeneric.getRangeY_loop, hat]
    · have hat : b.at (k : Int).toNat = .ok b.items[k] := by
        simp [CircularBuffer.at, List.getElem?_eq_getElem hlt]
      simp only [PlotDataGeneric.getRangeY_loop, hat, hnext]
      split
      · exact ih (k + 1) _ _ (by omega) (by omega)
      · split
        · exact ih (k + 1) _ _ (by omega) (by omega)
        · exact ih (k + 1) _ _ (by omega) (by omega)

/-- With its default arguments `(0, INT_MAX)`, `getRangeY` throws `std::out_of_range` on
every buffer that holds fewer than `INT_MAX` values, empty or not. -/
theorem getRangeY_default_arguments_throw {Time Value : Type} [LinearOrder Value]
    (s : PlotDataGeneric Time Value) (hsmall : s._y_points.size < 2147483647) :
    s.getRangeY 0 2147483647 = .error .out_of_range := by
  have hsmall2 : s._y_points.items.length < 2147483647 := hsmall
  have hguard : ¬ ((0 : Int) < 0 ∨ (2147483647 : Int) < 0 ∨ (0 : Int) > 2147483647) := by
    omega
  have hcount : ((2147483647 : Int) - (0 + 1)).toNat = 2147483646 := by decide
  have hstart : ((0 : Int) + 1) = ((1 : Nat) : Int) := rfl
  have hcount2 : ((2147483647 : Int) - ((1 : Nat) : Int)).toNat = 2147483646 := by decide
  rcases Nat.eq_zero_or_pos s._y_points.items.length with hzero | hpos
  · have hat : s._y_points.at (0 : Int).toNat = .error .out_of_range := by
      simp [CircularBuffer.at, List.getElem?_eq_none (le_of_eq hzero)]
    simp only [PlotDataGeneric.getRangeY, hguard, if_false, hat, bind, Except.bind]
  · have hat : s._y_points.at (0 : Int).toNat = .ok s._y_points.items[0] := by
      simp [CircularBuffer.at, List.getElem?_eq_getElem hpos]
    have hloop := getRangeY_loop_past_end s._y_points 2147483646 1 s._y_points.items[0]
      s._y_points.items[0] (by omega) (by omega)
    simp only [PlotDataGeneric.getRangeY, hguard, if_false, hat, hcount, hstart, hcount2,
      hloop, bind, Except.bind]

/-- C17 fails on the code: two samples with the same timestamp 5 are non-decreasing, yet
`delta` is `(5 - 5) / (2 - 1) = 0`, and the next `pushBack` divides `_max_range_X` by
zero.  The state is reached by `setMaximumRangeX 100` and two pushes at time 5. -/
theorem delta_zero_on_equal_timestamps :
    (PlotDataGeneric.ctor : PlotDataGeneric Int Int).calls
        [.setMaximumRangeX 100, .pushBack ⟨5, 1⟩, .pushBack ⟨5, 2⟩]
      = .ok ⟨⟨1024, [5, 5]⟩, ⟨1024, [1, 2]⟩, 100, 1024⟩ ∧
    List.Pairwise (· ≤ ·) [5, (5 : Int)] ∧
    PlotDataGeneric.delta
      (⟨⟨1024, [5, 5]⟩, ⟨1024, [1, 2]⟩, 100, 1024⟩ : PlotDataGeneric Int Int) = .ok 0 ∧
    PlotDataGeneric.pushBack
      (⟨⟨1024, [5, 5]⟩, ⟨1024, [1, 2]⟩, 100, 1024⟩ : PlotDataGeneric Int Int) ⟨5, 3⟩
      = .error .undefined := by
  decide

/-! ## The two paths of `pushBack` -/

/-- When the adaptive block leaves a well-formed buffer as it is, `pushBack` is the plain
ring-buffer append: the capacities stay, below capacity the sample is appended, at
capacity the oldest sample is dropped first. -/
theorem pushBack_plain_of_adapt {Time Value : Type} [DecidableEq Time] [ArithmeticTime Time]
    (s : PlotDataGeneric Time Value) (p : Point Time Value) (hwf : s.WellFormed)
    (hadapt : s.adapt = .ok s) :
    ∃ s1, s.pushBack p = .ok s1 ∧
      s1._x_points.capacity = s._x_points.capacity ∧
      s1._y_points.capacity = s._y_points.capacity ∧
      (s.size < s._x_points.capacity →
        s1._x_points.items = s._x_points.items ++ [p.x] ∧
        s1._y_points.items = s._y_points.items ++ [p.y]) ∧
      (s.size = s._x_points.capacity →
        s1._x_points.items = s._x_points.items.tail ++ [p.x] ∧
        s1._y_points.items = s._y_points.items.tail ++ [p.y] ∧
        s1.size = s.size) := by
  obtain ⟨hlen, hcap, hle, hmin, hmax⟩ := hwf
  have hpos : 0 < s._x_points.capacity := by
    unfold MIN_CAPACITY at hmin
    omega
  refine ⟨_, pushBack_of_adapt s s p hadapt, push_back_capacity _ _, push_back_capacity _ _,
    ?_, ?_⟩
  · intro hlt
    unfold PlotDataGeneric.size at hlt
    exact ⟨push_back_items_of_lt _ _ hlt, push_back_items_of_lt _ _ (by omega)⟩
  · intro heq
    unfold PlotDataGeneric.size at heq
    refine ⟨push_back_items_of_full _ _ heq hpos,
      push_back_items_of_full _ _ (by omega) (by omega), ?_⟩
    show (s._x_points.push_back p.x).size = s._x_points.size
    rw [push_back_size _ _ hle hpos]
    omega

/-- The adaptive block does nothing when fewer than 2 samples are stored. -/
theorem adapt_of_size_lt_two {Time Value : Type} [DecidableEq Time] [ArithmeticTime Time]
    (s : PlotDataGeneric Time Value) (hsize : s.size < 2) : s.adapt = .ok s := by
  have hsmall : ¬ 2 ≤ s._x_points.size := by
    unfold PlotDataGeneric.size at hsize
    omega
  have htrig : s.adaptiveTrigger = false := by
    simp [PlotDataGeneric.adaptiveTrigger, hsmall]
  simp [PlotDataGeneric.adapt, htrig, pure, Except.pure]

/-- The adaptive block does nothing when the proposed capacity is within the hysteresis
band of the sequences' capacity. -/
theorem adapt_within_band {Time Value : Type} [DecidableEq Time] [ArithmeticTime Time]
    (s : PlotDataGeneric Time Value) (new_capacity : Nat)
    (hprop : s.proposedCapacity = .ok new_capacity)
    (hband : Int.natAbs ((new_capacity : Int) - (s._x_points.capacity : Int))
      ≤ (s._x_points.capacity * 2) / 100) : s.adapt = .ok s := by
  have hnot : ¬ Int.natAbs ((new_capacity : Int) - (s._x_points.capacity : Int))
      > (s._x_points.capacity * 2) / 100 := by omega
  by_cases htrig : s.adaptiveTrigger = true
  · simp only [PlotDataGeneric.adapt, htrig, if_true, hprop, bind, Except.bind, hnot,
      if_false, pure, Except.pure]
  · simp only [PlotDataGeneric.adapt, htrig, if_false, pure, Except.pure]
    rfl

/-- C15: if fewer than 2 samples are stored, or `_max_range_X` is unbounded, or the
proposed capacity differs from the capacity of the sequences by at most
`capacity * 2 / 100`, then `pushBack p` succeeds, leaves the capacity of both sequences
unchanged and is a plain ring-buffer append: `p` is appended, and the oldest sample is
dropped only when the buffer was already full. -/
theorem pushBack_without_resize {Time Value : Type} [DecidableEq Time] [ArithmeticTime Time]
    (s : PlotDataGeneric Time Value) (p : Point Time Value) (hwf : s.WellFormed)
    (hcond : s.size < 2 ∨ s._max_range_X = ArithmeticTime.max ∨
      ∃ new_capacity, s.proposedCapacity = .ok new_capacity ∧
        Int.natAbs ((new_capacity : Int) - (s._x_points.capacity : Int))
          ≤ (s._x_points.capacity * 2) / 100) :
    ∃ s1, s.pushBack p = .ok s1 ∧
      s1._x_points.capacity = s._x_points.capacity ∧
      s1._y_points.capacity = s._y_points.capacity ∧
      (s.size < s._x_points.capacity →
        s1._x_points.items = s._x_points.items ++ [p.x] ∧
        s1._y_points.items = s._y_points.items ++ [p.y]) ∧
      (s.size = s._x_points.capacity →
        s1._x_points.items = s._x_points.items.tail ++ [p.x] ∧
        s1._y_points.items = s._y_points.items.tail ++ [p.y] ∧
        s1.size = s.size) := by
  apply pushBack_plain_of_adapt s p hwf
  rcases hcond with hsize | hmax | ⟨new_capacity, hprop, hband⟩
  · exact adapt_of_size_lt_two s hsize
  · exact adapt_unbounded s hmax
  · exact adapt_within_band s new_capacity hprop hband

/-- C15 on a full buffer of capacity 10 holding timestamps `0, 10, ..., 90` with
`_max_range_X = 100`: the proposed capacity is `100 / (90 / 9) = 10`, inside the band, and
the push drops the sample at time 0. -/
theorem pushBack_without_resize_witness :
    PlotDataGeneric.proposedCapacity
      (⟨⟨10, [0, 10, 20, 30, 40, 50, 60, 70, 80, 90]⟩,
        ⟨10, [0, 1, 2, 3, 4, 5, 6, 7, 8, 9]⟩, 100, 1024⟩ : PlotDataGeneric Int Int)
      = .ok 10 ∧
    ∃ s1, PlotDataGeneric.pushBack
        (⟨⟨10, [0, 10, 20, 30, 40, 50, 60, 70, 80, 90]⟩,
          ⟨10, [0, 1, 2, 3, 4, 5, 6, 7, 8, 9]⟩, 100, 1024⟩ : PlotDataGeneric Int Int)
        ⟨100, 10⟩ = .ok s1 ∧
      s1._x_points.capacity = 10 ∧ s1._y_points.capacity = 10 ∧
      ((10 : Nat) < 10 →
        s1._x_points.items = [0, 10, 20, 30, 40, 50, 60, 70, 80, 90] ++ [100] ∧
        s1._y_points.items = [0, 1, 2, 3, 4, 5, 6, 7, 8, 9] ++ [10]) ∧
      ((10 : Nat) = 10 →
        s1._x_points.items = [10, 20, 30, 40, 50, 60, 70, 80, 90] ++ [100] ∧
        s1._y_points.items = [1, 2, 3, 4, 5, 6, 7, 8, 9] ++ [10] ∧
        s1.size = 10) :=
  ⟨by decide,
   pushBack_without_resize
    (⟨⟨10, [0, 10, 20, 30, 40, 50, 60, 70, 80, 90]⟩,
      ⟨10, [0, 1, 2, 3, 4, 5, 6, 7, 8, 9]⟩, 100, 1024⟩ : PlotDataGeneric Int Int)
    ⟨100, 10⟩ (by decide) (Or.inr (Or.inr ⟨10, by decide, by decide⟩))⟩

/-- The adaptive block when it resizes a well-formed buffer: it succeeds, keeps the
`min (size()) new_capacity` most recent samples of both sequences and sets both capacities
to `new_capacity` clamped into `[10, 1048576]`. -/
theorem adapt_resize {Time Value : Type} [DecidableEq Time] [ArithmeticTime Time]
    (s : PlotDataGeneric Time Value) (new_capacity : Nat)
    (hwf : s.WellFormed) (htrig : s.adaptiveTrigger = true)
    (hprop : s.proposedCapacity = .ok new_capacity)
    (hbig : Int.natAbs ((new_capacity : Int) - (s._x_points.capacity : Int))
      > (s._x_points.capacity * 2) / 100) :
    ∃ sa, s.adapt = .ok sa ∧
      sa._x_points.items = s._x_points.items.drop (s.size - new_capacity) ∧
      sa._y_points.items = s._y_points.items.drop (s.size - new_capacity) ∧
      sa._x_points.capacity = min (max new_capacity 10) 1048576 ∧
      sa._y_points.capacity = min (max new_capacity 10) 1048576 := by
  obtain ⟨hlen, hcap, hle, hmin, hmax⟩ := hwf
  have hlen2 : s._x_points.items.length = s._y_points.items.length := hlen
  have hle2 : s._x_points.items.length ≤ s._x_points.capacity := hle
  have hmin2 : 10 ≤ s._x_points.capacity := hmin
  have hmax2 : s._x_points.capacity ≤ 1048576 := hmax
  have hadapt : s.adapt = s.applyNewCapacity new_capacity := by
    simp only [PlotDataGeneric.adapt, htrig, if_true, hprop, bind, Except.bind, hbig]
  rw [hadapt, applyNewCapacity_eq s new_capacity hlen]
  refine ⟨_, rfl, ?_, ?_, ?_, ?_⟩
  · exact set_capacity_items_of_le _ _ (by
      show (s._x_points.items.drop (s._x_points.items.length - new_capacity)).length
        ≤ min (max new_capacity 10) 1048576
      rw [List.length_drop]
      omega)
  · exact set_capacity_items_of_le _ _ (by
      show (s._y_points.items.drop (s._x_points.items.length - new_capacity)).length
        ≤ min (max new_capacity 10) 1048576
      rw [List.length_drop]
      omega)
  · exact set_capacity_capacity _ _
  · exact set_capacity_capacity _ _

/-- What `push_back` does to a buffer of non-zero capacity that holds no more than its
capacity. -/
theorem push_back_spec {α : Type} (b : CircularBuffer α) (v : α)
    (hle : b.size ≤ b.capacity) (hpos : 0 < b.capacity) :
    (b.size < b.capacity → (b.push_back v).items = b.items ++ [v]) ∧
    (b.size = b.capacity → (b.push_back v).items = b.items.tail ++ [v]) ∧
    (b.push_back v).size ≤ b.capacity ∧
    (b.push_back v).items.getLast? = some v := by
  refine ⟨fun hlt => push_back_items_of_lt b v hlt,
    fun heq => push_back_items_of_full b v heq hpos, ?_, ?_⟩
  · rw [push_back_size b v hle hpos]
    omega
  · rcases Nat.lt_or_eq_of_le hle with hlt | heq
    · rw [push_back_items_of_lt b v hlt, List.getLast?_concat]
    · rw [push_back_items_of_full b v heq hpos, List.getLast?_concat]

/-- C16: when the adaptive trigger fires and the proposed capacity is outside the
hysteresis band, `pushBack p` succeeds; the survivors of the eviction are the
`min (size()) new_capacity` most recent old samples; the capacity of both sequences becomes
`new_capacity` clamped into `[10, 1048576]`; `p` is appended to the survivors, whose oldest
sample is dropped only when they already fill the new capacity; the final size is at most
the new capacity and `p` is the newest sample. -/
theorem pushBack_with_resize {Time Value : Type} [DecidableEq Time] [ArithmeticTime Time]
    (s : PlotDataGeneric Time Value) (p : Point Time Value) (new_capacity : Nat)
    (hwf : s.WellFormed) (htrig : s.adaptiveTrigger = true)
    (hprop : s.proposedCapacity = .ok new_capacity)
    (hbig : Int.natAbs ((new_capacity : Int) - (s._x_points.capacity : Int))
      > (s._x_points.capacity * 2) / 100) :
    ∃ s1, s.pushBack p = .ok s1 ∧
      (s._x_points.items.drop (s.size - new_capacity)).length = min s.size new_capacity ∧
      (s._y_points.items.drop (s.size - new_capacity)).length = min s.size new_capacity ∧
      s1._x_points.capacity = min (max new_capacity 10) 1048576 ∧
      s1._y_points.capacity = min (max new_capacity 10) 1048576 ∧
      (min s.size new_capacity < min (max new_capacity 10) 1048576 →
        s1._x_points.items = s._x_points.items.drop (s.size - new_capacity) ++ [p.x] ∧
        s1._y_points.items = s._y_points.items.drop (s.size - new_capacity) ++ [p.y]) ∧
      (min s.size new_capacity = min (max new_capacity 10) 1048576 →
        s1._x_points.items
          = (s._x_points.items.drop (s.size - new_capacity)).tail ++ [p.x] ∧
        s1._y_points.items
          = (s._y_points.items.drop (s.size - new_capacity)).tail ++ [p.y]) ∧
      s1.size ≤ min (max new_capacity 10) 1048576 ∧
      s1._x_points.items.getLast? = some p.x ∧
      s1._y_points.items.getLast? = some p.y := by
  obtain ⟨sa, hadapt, hax, hay, haxcap, haycap⟩ :=
    adapt_resize s new_capacity hwf htrig hprop hbig
  obtain ⟨hlen, hcap, hle, hmin, hmax⟩ := hwf
  have hlen2 : s._x_points.items.length = s._y_points.items.length := hlen
  have hle2 : s._x_points.items.length ≤ s._x_points.capacity := hle
  have hmin2 : 10 ≤ s._x_points.capacity := hmin
  have hmax2 : s._x_points.capacity ≤ 1048576 := hmax
  have hsz : s.size = s._x_points.items.length := rfl
  have hxlen : (s._x_points.items.drop (s.size - new_capacity)).length
      = min s.size new_capacity := by
    rw [List.length_drop]
    omega
  have hylen : (s._y_points.items.drop (s.size - new_capacity)).length
      = min s.size new_capacity := by
    rw [List.length_drop]
    omega
  have haxsize : sa._x_points.size = min s.size new_capacity := by
    unfold CircularBuffer.size
    rw [hax, hxlen]
  have haysize : sa._y_points.size = min s.size new_capacity := by
    unfold CircularBuffer.size
    rw [hay, hylen]
  have hfit : min s.size new_capacity ≤ min (max new_capacity 10) 1048576 := by omega
  have hpos : 0 < min (max new_capacity 10) 1048576 := by omega
  obtain ⟨hxlt, hxfull, hxsize, hxlast⟩ := push_back_spec sa._x_points p.x
    (by rw [haxsize, haxcap]; exact hfit) (by rw [haxcap]; exact hpos)
  obtain ⟨hylt, hyfull, _, hylast⟩ := push_back_spec sa._y_points p.y
    (by rw [haysize, haycap]; exact hfit) (by rw [haycap]; exact hpos)
  rw [haxsize, haxcap, hax] at hxlt hxfull
  rw [haysize, haycap, hay] at hylt hyfull
  rw [haxcap] at hxsize
  refine ⟨_, pushBack_of_adapt s sa p hadapt, hxlen, hylen, ?_, ?_, ?_, ?_, hxsize, hxlast,
    hylast⟩
  · show (sa._x_points.push_back p.x).capacity = _
    rw [push_back_capacity, haxcap]
  · show (sa._y_points.push_back p.y).capacity = _
    rw [push_back_capacity, haycap]
  · intro hlt
    exact ⟨hxlt hlt, hylt hlt⟩
  · intro heq
    exact ⟨hxfull heq, hyfull heq⟩

/-- C16 on timestamps `[0, 10, 20, 30]` with `_max_range_X = 20` and capacity 1024: the
proposed capacity is `20 / (30 / 3) = 2`, so the two oldest samples are evicted, the
capacity becomes 10 and the new sample is appended to the survivors `[20, 30]`. -/
theorem pushBack_with_resize_witness :
    PlotDataGeneric.pushBack
        (⟨⟨1024, [0, 10, 20, 30]⟩, ⟨1024, [5, 6, 7, 8]⟩, 20, 1024⟩ : PlotDataGeneric Int Int)
        ⟨40, 9⟩ = .ok ⟨⟨10, [20, 30, 40]⟩, ⟨10, [7, 8, 9]⟩, 20, 1024⟩ ∧
    ∃ s1, PlotDataGeneric.pushBack
        (⟨⟨1024, [0, 10, 20, 30]⟩, ⟨1024, [5, 6, 7, 8]⟩, 20, 1024⟩ : PlotDataGeneric Int Int)
        ⟨40, 9⟩ = .ok s1 ∧
      (List.drop (4 - 2) [0, 10, 20, (30 : Int)]).length = min 4 2 ∧
      (List.drop (4 - 2) [5, 6, 7, (8 : Int)]).length = min 4 2 ∧
      s1._x_points.capacity = min (max 2 10) 1048576 ∧
      s1._y_points.capacity = min (max 2 10) 1048576 ∧
      (min 4 2 < min (max 2 10) 1048576 →
        s1._x_points.items = List.drop (4 - 2) [0, 10, 20, 30] ++ [40] ∧
        s1._y_points.items = List.drop (4 - 2) [5, 6, 7, 8] ++ [9]) ∧
      (min 4 2 = min (max 2 10) 1048576 →
        s1._x_points.items = (List.drop (4 - 2) [0, 10, 20, 30]).tail ++ [40] ∧
        s1._y_points.items = (List.drop (4 - 2) [5, 6, 7, 8]).tail ++ [9]) ∧
      s1.size ≤ min (max 2 10) 1048576 ∧
      s1._x_points.items.getLast? = some 40 ∧
      s1._y_points.items.getLast? = some 9 :=
  ⟨by decide,
   pushBack_with_resize
    (⟨⟨1024, [0, 10, 20, 30]⟩, ⟨1024, [5, 6, 7, 8]⟩, 20, 1024⟩ : PlotDataGeneric Int Int)
    ⟨40, 9⟩ 2 (by decide) (by decide) (by decide) (by decide)⟩

/-! ## Order of the timestamps -/

/-- When the eviction loop of `pushBack` succeeds, what it leaves of the first list is a
suffix of that list. -/
theorem evictLoop_fst {Time Value : Type} (new_capacity : Nat) :
    ∀ (xs : List Time) (ys : List Value) (r : List Time × List Value),
      PlotDataGeneric.evictLoop new_capacity xs ys = .ok r →
      r.1 = xs.drop (xs.length - new_capacity) := by
  intro xs
  induction xs with
  | nil =>
    intro ys r h
    simp only [PlotDataGeneric.evictLoop, Except.ok.injEq] at h
    subst h
    simp
  | cons x xs ih =>
    intro ys r h
    by_cases hgt : (x :: xs).length > new_capacity
    · have hk : (x :: xs).length - new_capacity = (xs.length - new_capacity) + 1 := by
        simp only [List.length_cons] at hgt ⊢
        omega
      cases ys with
      | nil =>
        simp only [PlotDataGeneric.evictLoop, hgt, if_true] at h
        cases h
      | cons y ys =>
        simp only [PlotDataGeneric.evictLoop, hgt, if_true] at h
        rw [ih ys r h, hk, List.drop_succ_cons]
    · have hk : (x :: xs).length - new_capacity = 0 := by omega
      simp only [PlotDataGeneric.evictLoop, hgt, if_false, Except.ok.injEq] at h
      subst h
      rw [hk, List.drop_zero]

/-- The elements left by `set_capacity` are a sublist of the elements before. -/
theorem set_capacity_sublist {α : Type} (b : CircularBuffer α) (n : Nat) :
    (b.set_capacity n).items.Sublist b.items := by
  unfold CircularBuffer.set_capacity
  split
  · exact List.Sublist.refl _
  · exact List.take_sublist _ _

/-- The timestamps left by the adaptive block of `pushBack` are a sublist of the
timestamps before. -/
theorem adapt_sublist {Time Value : Type} [DecidableEq Time] [ArithmeticTime Time]
    (s sa : PlotDataGeneric Time Value) (h : s.adapt = .ok sa) :
    sa._x_points.items.Sublist s._x_points.items := by
  rcases adapt_cases s sa h with heq | ⟨new_capacity, _, _, _, happly⟩
  · rw [heq]
  · unfold PlotDataGeneric.applyNewCapacity at happly
    cases hev : PlotDataGeneric.evictLoop new_capacity s._x_points.items s._y_points.items with
    | error e =>
      rw [hev] at happly
      simp [bind, Except.bind] at happly
    | ok r =>
      rw [hev] at happly
      simp only [bind, Except.bind, pure, Except.pure, Except.ok.injEq] at happly
      subst happly
      have hfst := evictLoop_fst new_capacity _ _ r hev
      show (CircularBuffer.set_capacity _ _).items.Sublist _
      refine List.Sublist.trans (set_capacity_sublist _ _) ?_
      show r.1.Sublist s._x_points.items
      rw [hfst]
      exact List.drop_sublist _ _

/-- In a non-decreasing list every element is at most the last one. -/
theorem sorted_le_getLast {α : Type} [LinearOrder α] (xs : List α)
    (hs : xs.Pairwise (· ≤ ·)) (t : α) (hlast : xs.getLast? = some t) :
    ∀ a ∈ xs, a ≤ t := by
  intro a ha
  obtain ⟨i, hi⟩ := List.getElem?_of_mem ha
  have hilt : i < xs.length := (List.getElem?_eq_some.mp hi).1
  rw [List.getLast?_eq_getElem?] at hlast
  exact sorted_getElem?_le hs (by omega) hi hlast

/-- Appending by `push_back` an element that is at least every stored element keeps a
non-decreasing buffer non-decreasing. -/
theorem push_back_sorted {α : Type} [LinearOrder α] (b : CircularBuffer α) (v : α)
    (hs : b.items.Pairwise (· ≤ ·)) (hv : ∀ a ∈ b.items, a ≤ v) :
    (b.push_back v).items.Pairwise (· ≤ ·) := by
  unfold CircularBuffer.push_back
  split
  · split
    · exact hs
    · show (b.items.tail ++ [v]).Pairwise (· ≤ ·)
      rw [List.pairwise_append]
      refine ⟨hs.sublist (List.tail_sublist _), List.pairwise_singleton _ _, ?_⟩
      intro a ha c hc
      rw [List.mem_singleton] at hc
      rw [hc]
      exact hv a ((List.tail_sublist _).subset ha)
  · show (b.items ++ [v]).Pairwise (· ≤ ·)
    rw [List.pairwise_append]
    refine ⟨hs, List.pairwise_singleton _ _, ?_⟩
    intro a ha c hc
    rw [List.mem_singleton] at hc
    rw [hc]
    exact hv a ha

/-- C19: on a buffer whose timestamps are non-decreasing, a `pushBack p` with `p.x` at
least the newest stored timestamp (or on an empty buffer) that returns leaves the
timestamps non-decreasing, whichever path it takes; `setCapacity` and `setMaximumRangeX`
leave them non-decreasing as well. -/
theorem timestamps_stay_sorted {Time Value : Type} [LinearOrder Time] [ArithmeticTime Time]
    (s : PlotDataGeneric Time Value) (hsorted : s._x_points.items.Pairwise (· ≤ ·)) :
    (∀ (p : Point Time Value) (s1 : PlotDataGeneric Time Value),
      (∀ t, s._x_points.items.getLast? = some t → t ≤ p.x) →
      s.pushBack p = .ok s1 → s1._x_points.items.Pairwise (· ≤ ·)) ∧
    (∀ n, (s.setCapacity n)._x_points.items.Pairwise (· ≤ ·)) ∧
    (∀ max_range, (s.setMaximumRangeX max_range)._x_points.items.Pairwise (· ≤ ·)) := by
  refine ⟨?_, ?_, ?_⟩
  · intro p s1 hnew hpush
    obtain ⟨sa, hadapt, rfl⟩ := pushBack_eq_ok s s1 p hpush
    have hsub := adapt_sublist s sa hadapt
    have hall : ∀ a ∈ s._x_points.items, a ≤ p.x := by
      intro a ha
      cases hl : s._x_points.items.getLast? with
      | none =>
        rw [List.getLast?_eq_none_iff] at hl
        rw [hl] at ha
        simp at ha
      | some t => exact le_trans (sorted_le_getLast _ hsorted t hl a ha) (hnew t hl)
    show (sa._x_points.push_back p.x).items.Pairwise (· ≤ ·)
    exact push_back_sorted _ _ (hsorted.sublist hsub) (fun a ha => hall a (hsub.subset ha))
  · intro n
    show (CircularBuffer.set_capacity _ _).items.Pairwise (· ≤ ·)
    exact hsorted.sublist (set_capacity_sublist _ _)
  · intro max_range
    exact hsorted

/-- C19 on timestamps `[0, 10, 20, 30]` with `_max_range_X = 20`: the push of time 40 takes
the adaptive-resize path and leaves `[20, 30, 40]`. -/
theorem timestamps_stay_sorted_witness :
    PlotDataGeneric.pushBack
        (⟨⟨1024, [0, 10, 20, 30]⟩, ⟨1024, [5, 6, 7, 8]⟩, 20, 1024⟩ : PlotDataGeneric Int Int)
        ⟨40, 9⟩ = .ok ⟨⟨10, [20, 30, 40]⟩, ⟨10, [7, 8, 9]⟩, 20, 1024⟩ ∧
    List.Pairwise (· ≤ ·) [20, 30, (40 : Int)] :=
  ⟨by decide,
   (timestamps_stay_sorted
      (⟨⟨1024, [0, 10, 20, 30]⟩, ⟨1024, [5, 6, 7, 8]⟩, 20, 1024⟩ : PlotDataGeneric Int Int)
      (by decide)).1 ⟨40, 9⟩ ⟨⟨10, [20, 30, 40]⟩, ⟨10, [7, 8, 9]⟩, 20, 1024⟩
      (by decide) (by decide)⟩

end PlotJuggler
